import Mathlib

/-!
Verification development for the `fitness-oauth-bridge` repository (Pete-E).

We give a shallow embedding of the core of the program:
  * the Data Access Layer (DAL) with its two backends
    (`src/pete_e/data_access/json_dal.py`, `src/pete_e/data_access/postgres_dal.py`),
  * the metric-sync coordinator (`src/pete_e/core/sync.py`),
  * the progression engine (`src/pete_e/core/progression.py`),
  * the recovery validator (`src/pete_e/core/validation.py`),
  * the plan builder (`src/pete_e/core/plan_builder.py`),
  * the lift-log helper (`src/pete_e/core/lift_log.py`).

Modelling conventions, used consistently below:
  * Calendar dates are modelled as natural numbers.  The source code keys its
    dictionaries by `date.isoformat()` strings; ISO-8601 date strings are
    fixed width, so their lexicographic order is exactly the chronological
    order of the dates they denote.  A natural-number date code is therefore
    an order-isomorphic stand-in for the ISO string, and `sorted(history.keys())`
    is modelled by sorting the numeric date keys.
  * Python `float` arithmetic is modelled by exact rational arithmetic (`ℚ`).
  * Python dictionaries are modelled by insertion-ordered association lists;
    updating an existing key keeps its position (as Python dicts do).
  * A Python function that can raise is modelled in `Except PyExc`.
  * Python's stable builtin `sorted` is modelled by `List.insertionSort`,
    which is a stable sort producing the same output.
-/

/-- Exceptions that the modelled code can raise.  The source repository defines
no `StorageError` class anywhere; the constructor `storageError` exists in this
type only so that the specification's sentence "surfaces as a typed
StorageError" can be stated (and compared with what the code actually does). -/
inductive PyExc where
  | jsonDecodeError
  | osError
  | keyError
  | typeError
  | storageError
  deriving DecidableEq

/-- JSON values (the payloads stored by the JSON backend and moved around by
the sync coordinator).  Numbers are rationals: Python's `80 == 80.0` makes int
and float literals equal as dict values, which `num` with a `ℚ` payload
mirrors. -/
inductive JVal where
  | null
  | bool (b : Bool)
  | num (q : ℚ)
  | str (s : String)
  | arr (xs : List JVal)
  | obj (fields : List (String × JVal))

/-- `d.get(k)` on a JSON object: `none` models Python `None` (absent key).
On non-objects the chained `.get` calls in the source are only applied to
values that are dicts. -/
def JVal.get : JVal → String → Option JVal
  | .obj fields, k => fields.lookup k
  | _, _ => none

/-- `d.get(k, default)`. -/
def JVal.getD (v : JVal) (k : String) (dflt : JVal) : JVal :=
  (v.get k).getD dflt

/-- Number of fields of a JSON object (an observer used to separate values). -/
def JVal.nfields : JVal → ℕ
  | .obj fields => fields.length
  | _ => 0

/-- State of one file on disk, as seen through `json.load`:
absent, present but not valid JSON, or holding a parsed value of the
schema `α` that the code stores there. -/
inductive FileState (α : Type) where
  | absent
  | corrupt
  | good (v : α)
  deriving DecidableEq

/-- `JsonDal._read_json` (json_dal.py lines 18-22): an absent file is treated
as the empty dict; otherwise the file is parsed, and a malformed file makes
`json.load` raise `json.JSONDecodeError` — there is no translation into any
typed storage error. -/
def jsonReadFile {α : Type} (emptyVal : α) : FileState α → Except PyExc α
  | .absent => .ok emptyVal
  | .corrupt => .error .jsonDecodeError
  | .good v => .ok v

/-- Association-list lookup keyed by naturals (model of `d[k]` / `d.get(k)`
on a dict keyed by dates). -/
def alookup {κ α : Type} [DecidableEq κ] : List (κ × α) → κ → Option α
  | [], _ => none
  | (k, v) :: rest, d => if k = d then some v else alookup rest d

/-- Insertion-ordered upsert: `d[k] = v` on a Python dict.  An existing key
keeps its position, a new key is appended at the end. -/
def upsert {κ α : Type} [DecidableEq κ] : List (κ × α) → κ → α → List (κ × α)
  | [], d, v => [(d, v)]
  | (k, w) :: rest, d, v =>
      if k = d then (d, v) :: rest else (k, w) :: upsert rest d v

/-- Python's `l[-n:]` slice for `n ≥ 0`: for `n = 0` the index `-0` is just
`0`, so `l[-0:] = l[0:]` is the whole list; for `n ≥ 1` it is the suffix of
length `min n (length l)`. -/
def pyLastSlice {α : Type} (l : List α) (n : ℕ) : List α :=
  if n = 0 then l else l.drop (l.length - n)

/-- One strength-log entry.  `JsonDal.save_strength_log_entry` stores the keys
`date`, `reps`, `weight`, `rir` (with `rir` possibly `null`);
`lift_log.append_log_entry` stores `date`, `weight`, `reps`, `sets` and omits
`rir` when it is `None`.  Both shapes are modelled by this record with
optional fields; an absent key and a `null` value are both `none`. -/
structure Entry where
  date : ℕ
  reps : Option ℚ
  weight : Option ℚ
  sets : Option ℚ
  rir : Option ℚ
  deriving DecidableEq

/-- The lift log: a dict from `str(exercise_id)` to the entry list. -/
abbrev LiftLog := List (String × List Entry)

/-- On-disk state seen by `JsonDal`.  Each field is one of the files the
class touches; `daily` is the `knowledge/daily/` directory (one file per
date), `history` is `knowledge/history.json`, `liftLog` is
`knowledge/lift_log.json`. -/
structure JsonState where
  liftLog : FileState LiftLog
  history : FileState (List (ℕ × JVal))
  daily : List (ℕ × FileState JVal)

namespace JsonDal

/-- `JsonDal.load_lift_log` (json_dal.py line 30). -/
def load_lift_log (st : JsonState) : Except PyExc LiftLog :=
  jsonReadFile [] st.liftLog

/-- `JsonDal.save_lift_log` (line 33). -/
def save_lift_log (st : JsonState) (log : LiftLog) : JsonState :=
  { st with liftLog := .good log }

/-- `JsonDal.save_strength_log_entry` (lines 36-55): load the whole log,
`setdefault(key, [])`, append the new entry at the end of that exercise's
list — with NO re-sorting — and write the log back.  The entry keeps the
`rir` key with a `null` value when `rir` is `None`, and stores no `sets`. -/
def save_strength_log_entry (st : JsonState) (exercise_id : ℕ) (log_date : ℕ)
    (reps : ℚ) (weight_kg : ℚ) (rir : Option ℚ) : Except PyExc JsonState := do
  let log ← load_lift_log st
  let key := toString exercise_id
  let entry : Entry := { date := log_date, reps := some reps,
                         weight := some weight_kg, sets := none, rir := rir }
  let newList := (alookup log key).getD [] ++ [entry]
  pure (save_lift_log st (upsert log key newList))

/-- `JsonDal.load_history` (line 58). -/
def load_history (st : JsonState) : Except PyExc (List (ℕ × JVal)) :=
  jsonReadFile [] st.history

/-- `JsonDal.save_history` (line 61). -/
def save_history (st : JsonState) (history : List (ℕ × JVal)) : JsonState :=
  { st with history := .good history }

/-- `JsonDal.save_daily_summary` (lines 64-69): write the summary to the
per-day file under `knowledge/daily/`, then merge it into the consolidated
history file under the ISO-date key.  Note the per-day file is written
before the history file is read, so a corrupt history file aborts the
operation after the daily file was already replaced. -/
def save_daily_summary (st : JsonState) (summary : JVal) (day : ℕ) :
    Except PyExc JsonState := do
  let st1 : JsonState := { st with daily := upsert st.daily day (.good summary) }
  let history ← load_history st1
  pure (save_history st1 (upsert history day summary))

/-- `JsonDal.get_historical_metrics` (lines 75-78):
`sorted(history.keys())[-days:]` then an index per key.  The indexing
`history[d]` is over keys drawn from `history.keys()`, so the lookup always
succeeds; the `getD` default is unreachable. -/
def get_historical_metrics (st : JsonState) (days : ℕ) :
    Except PyExc (List JVal) := do
  let history ← load_history st
  let sorted_days := (history.map Prod.fst).insertionSort (· ≤ ·)
  pure ((pyLastSlice sorted_days days).map
    (fun d => (alookup history d).getD (.obj [])))

/-- `JsonDal.get_daily_summary` (lines 80-84): `None` when the per-day file
is absent, otherwise the parsed file contents. -/
def get_daily_summary (st : JsonState) (target_date : ℕ) :
    Except PyExc (Option JVal) :=
  match alookup st.daily target_date with
  | none => .ok none
  | some .absent => .ok none
  | some f => (jsonReadFile (.obj []) f).map some

end JsonDal

namespace lift_log

/-- `lift_log.load_log` (lift_log.py lines 9-13), on the module's own
`knowledge/lift_log.json` file. -/
def load_log (file : FileState LiftLog) : Except PyExc LiftLog :=
  match file with
  | .absent => .ok []
  | .corrupt => .error .jsonDecodeError
  | .good v => .ok v

/-- `lift_log.append_log_entry` (lines 22-49): load the log, append the new
entry (omitting `rir` when `None`, and storing `sets`), then re-sort that
exercise's list by date with Python's stable `sorted` before saving. -/
def append_log_entry (file : FileState LiftLog) (exercise_id : ℕ) (weight : ℚ)
    (reps : ℚ) (sets : ℚ) (rir : Option ℚ) (log_date : ℕ) :
    Except PyExc (FileState LiftLog) := do
  let log ← load_log file
  let key := toString exercise_id
  let entry : Entry := { date := log_date, reps := some reps,
                         weight := some weight, sets := some sets, rir := rir }
  let newList := ((alookup log key).getD [] ++ [entry]).insertionSort
    (fun a b => a.date ≤ b.date)
  pure (.good (upsert log key newList))

end lift_log

/-- One row of the `daily_summary` table: the 20 metric columns (the 21st
column, `summary_date`, is the association-list key). -/
structure PgRow where
  weight_kg : Option ℚ
  body_fat_pct : Option ℚ
  muscle_mass_kg : Option ℚ
  water_pct : Option ℚ
  steps : Option ℚ
  exercise_minutes : Option ℚ
  calories_active : Option ℚ
  calories_resting : Option ℚ
  stand_minutes : Option ℚ
  distance_m : Option ℚ
  hr_resting : Option ℚ
  hr_avg : Option ℚ
  hr_max : Option ℚ
  hr_min : Option ℚ
  sleep_total_minutes : Option ℚ
  sleep_asleep_minutes : Option ℚ
  sleep_rem_minutes : Option ℚ
  sleep_deep_minutes : Option ℚ
  sleep_core_minutes : Option ℚ
  sleep_awake_minutes : Option ℚ
  deriving DecidableEq

/-- One row of the `strength_log` table. -/
structure SRow where
  summary_date : ℕ
  exercise_id : ℕ
  reps : Option ℚ
  weight_kg : Option ℚ
  rir : Option ℚ
  deriving DecidableEq

/-- State of the PostgreSQL backend: whether the pooled connection works,
plus the two tables the modelled operations touch.  SQL tables are unordered
multisets of rows; the list order here is irrelevant because every query
sorts by `summary_date`. -/
structure PgState where
  connected : Bool
  daily : List (ℕ × PgRow)
  strength : List SRow

/-- The `except Exception` handler wrapped around every `PostgresDal` method
body: any error from the `try` block is logged via `log_utils.log_message`
and replaced by the method's fallback value.  No exception ever escapes to
the caller. -/
def pgTry {α : Type} (fallback : α) : Except PyExc α → Except PyExc α
  | .ok v => .ok v
  | .error _ => .ok fallback

/-- A query on a dead connection raises inside the `try` block
(`psycopg.OperationalError`); modelled by `osError`. -/
def pgGuard {α : Type} (st : PgState) (v : α) : Except PyExc α :=
  if st.connected then .ok v else .error .osError

/-- `float(x)` on a nullable column value: raises `TypeError` on `None`. -/
def pyFloat : Option ℚ → Except PyExc ℚ
  | none => .error .typeError
  | some q => .ok q

/-- A Python value used as a query parameter for a numeric column:
`None` becomes SQL `NULL`, a number is passed through, anything else makes
the INSERT fail inside the `try` block. -/
def pgNumParam : Option JVal → Except PyExc (Option ℚ)
  | none => .ok none
  | some .null => .ok none
  | some (.num q) => .ok (some q)
  | some _ => .error .typeError

/-- A nullable numeric column value as a JSON value
(`float(row[c]) if row[c] is not None else None`). -/
def jNum : Option ℚ → JVal
  | none => .null
  | some q => .num q

namespace PostgresDal

/-- Rows of `daily_summary` in `ORDER BY summary_date ASC` order. -/
def sortedAsc (rows : List (ℕ × PgRow)) : List (ℕ × PgRow) :=
  rows.insertionSort (fun a b => a.1 ≤ b.1)

/-- Rows of `daily_summary` in `ORDER BY summary_date DESC` order. -/
def sortedDesc (rows : List (ℕ × PgRow)) : List (ℕ × PgRow) :=
  rows.insertionSort (fun a b => b.1 ≤ a.1)

/-- `PostgresDal.load_lift_log` (postgres_dal.py lines 44-66): select all
strength rows in date order and group them by `str(exercise_id)`.
`float(row["weight_kg"])` raises on a NULL weight; the surrounding handler
then swallows the error and the method returns `{}`. -/
def load_lift_log (st : PgState) : Except PyExc LiftLog :=
  pgTry [] (do
    let rows ← pgGuard st (st.strength.insertionSort
      (fun a b => a.summary_date ≤ b.summary_date))
    rows.foldlM (fun acc row => do
      let w ← pyFloat row.weight_kg
      let entry : Entry := { date := row.summary_date, reps := row.reps,
                             weight := some w, sets := none, rir := row.rir }
      let key := toString row.exercise_id
      pure (upsert acc key ((alookup acc key).getD [] ++ [entry]))) [])

/-- Parameter extraction of `PostgresDal.save_daily_summary`
(lines 73-75 and 111-133): `summary.get("withings", {})`,
`summary.get("apple", {})`, `sleep = apple.get("sleep", {})`, then one
`.get` per column. -/
def extractRow (summary : JVal) : Except PyExc PgRow := do
  let withings := summary.getD "withings" (.obj [])
  let apple := summary.getD "apple" (.obj [])
  let sleep := apple.getD "sleep" (.obj [])
  let calories := apple.getD "calories" (.obj [])
  let heart_rate := apple.getD "heart_rate" (.obj [])
  let weight_kg ← pgNumParam (withings.get "weight")
  let body_fat_pct ← pgNumParam (withings.get "fat_percent")
  let muscle_mass_kg ← pgNumParam (withings.get "muscle_mass")
  let water_pct ← pgNumParam (withings.get "water_percent")
  let steps ← pgNumParam (apple.get "steps")
  let exercise_minutes ← pgNumParam (apple.get "exercise_minutes")
  let calories_active ← pgNumParam (calories.get "active")
  let calories_resting ← pgNumParam (calories.get "resting")
  let stand_minutes ← pgNumParam (apple.get "stand_minutes")
  let distance_m ← pgNumParam (apple.get "distance_m")
  let hr_resting ← pgNumParam (heart_rate.get "resting")
  let hr_avg ← pgNumParam (heart_rate.get "avg")
  let hr_max ← pgNumParam (heart_rate.get "max")
  let hr_min ← pgNumParam (heart_rate.get "min")
  let sleep_total_minutes ← pgNumParam (sleep.get "in_bed")
  let sleep_asleep_minutes ← pgNumParam (sleep.get "asleep")
  let sleep_rem_minutes ← pgNumParam (sleep.get "rem")
  let sleep_deep_minutes ← pgNumParam (sleep.get "deep")
  let sleep_core_minutes ← pgNumParam (sleep.get "core")
  let sleep_awake_minutes ← pgNumParam (sleep.get "awake")
  pure { weight_kg, body_fat_pct, muscle_mass_kg, water_pct, steps,
         exercise_minutes, calories_active, calories_resting, stand_minutes,
         distance_m, hr_resting, hr_avg, hr_max, hr_min, sleep_total_minutes,
         sleep_asleep_minutes, sleep_rem_minutes, sleep_deep_minutes,
         sleep_core_minutes, sleep_awake_minutes }

/-- `PostgresDal.save_daily_summary` (lines 68-139): an
`INSERT ... ON CONFLICT (summary_date) DO UPDATE` upsert of the 20 metric
columns.  The `except` clause (lines 135-139) catches ANY failure, logs it,
and returns normally with the database unchanged. -/
def save_daily_summary (st : PgState) (summary : JVal) (day : ℕ) :
    Except PyExc PgState :=
  pgTry st (do
    let row ← pgGuard st () *> extractRow summary
    pure { st with daily := upsert st.daily day row })

/-- `PostgresDal.save_strength_log_entry` (lines 150-173): a plain INSERT
(appending a row, never deduplicating), with the same swallow-all handler. -/
def save_strength_log_entry (st : PgState) (exercise_id : ℕ) (log_date : ℕ)
    (reps : ℚ) (weight_kg : ℚ) (rir : Option ℚ) : Except PyExc PgState :=
  pgTry st (do
    pgGuard st ()
    pure { st with strength := st.strength ++
      [{ summary_date := log_date, exercise_id, reps := some reps,
         weight_kg := some weight_kg, rir := rir }] })

/-- `PostgresDal._row_to_summary` (lines 242-274): rebuild the canonical
nested summary dict from one row.  `float(...) if ... is not None else None`
and the raw integer columns both land on the same rational-or-null value. -/
def row_to_summary (r : PgRow) : JVal :=
  let j := jNum
  .obj [("withings", .obj [
            ("weight", j r.weight_kg), ("fat_percent", j r.body_fat_pct),
            ("muscle_mass", j r.muscle_mass_kg), ("water_percent", j r.water_pct)]),
        ("apple", .obj [
            ("steps", j r.steps), ("exercise_minutes", j r.exercise_minutes),
            ("calories", .obj [("active", j r.calories_active),
                               ("resting", j r.calories_resting)]),
            ("stand_minutes", j r.stand_minutes), ("distance_m", j r.distance_m),
            ("heart_rate", .obj [("resting", j r.hr_resting), ("avg", j r.hr_avg),
                                 ("max", j r.hr_max), ("min", j r.hr_min)]),
            ("sleep", .obj [("in_bed", j r.sleep_total_minutes),
                            ("asleep", j r.sleep_asleep_minutes),
                            ("rem", j r.sleep_rem_minutes),
                            ("deep", j r.sleep_deep_minutes),
                            ("core", j r.sleep_core_minutes),
                            ("awake", j r.sleep_awake_minutes)])])]

/-- `PostgresDal.load_history` (lines 175-230): all rows in ascending date
order, rebuilt into a dict keyed by the ISO date (the body at lines 185-225
inlines the same reconstruction as `_row_to_summary`). -/
def load_history (st : PgState) : Except PyExc (List (ℕ × JVal)) :=
  pgTry [] (do
    let rows ← pgGuard st (sortedAsc st.daily)
    pure (rows.map (fun p => (p.1, row_to_summary p.2))))

/-- `PostgresDal.get_historical_metrics` (lines 293-309):
`ORDER BY summary_date DESC LIMIT days`, then the fetched rows are walked in
`reversed` order. -/
def get_historical_metrics (st : PgState) (days : ℕ) :
    Except PyExc (List JVal) :=
  pgTry [] (do
    let rows ← pgGuard st ((sortedDesc st.daily).take days)
    pure (rows.reverse.map (fun p => row_to_summary p.2)))

/-- `PostgresDal.get_daily_summary` (lines 311-326): the row for the exact
date, or `None` — also `None` when the query failed and was swallowed. -/
def get_daily_summary (st : PgState) (target_date : ℕ) :
    Except PyExc (Option JVal) :=
  pgTry none (do
    let row ← pgGuard st (alookup st.daily target_date)
    pure (row.map row_to_summary))

end PostgresDal

/-- One workout-log row returned by `WgerClient.get_logs`; the fields the
sync loop passes on to `lift_log.append_log_entry`. -/
structure WgerLog where
  exercise_id : ℕ
  weight : ℚ
  reps : ℚ
  sets : ℚ
  rir : Option ℚ
  deriving DecidableEq

/-- The external world of one sync attempt: the outcome of each of the three
collaborator fetches (`WithingsClient.get_summary`,
`apple_client.get_apple_summary`, `WgerClient.get_logs`).  An `error` value
is the collaborator raising. -/
structure SyncEnv where
  withings : Except PyExc JVal
  apple : Except PyExc JVal
  wger : Except PyExc (List (ℕ × List WgerLog))

/-- The slice of the `DataAccessLayer` contract that `run_sync` calls through
its injected `dal` argument, over an abstract backend state `σ`
(the strength rows of a sync go through the `lift_log` module's own file,
not through the DAL — see `run_sync` below). -/
structure Dal (σ : Type) where
  save_daily_summary : σ → JVal → ℕ → Except PyExc σ

namespace sync

/-- The `for d, logs_list in wger_data.items(): for log in logs_list: ...`
loop of `run_sync` (sync.py lines 78-88): append every returned row via
`lift_log.append_log_entry`.  The call in the source passes a `dal=dal`
keyword that `lift_log.append_log_entry`'s signature does not declare; we
embed the call against the function it names (spec §9 notes this revision's
mismatched signatures).  A raise part-way through keeps the rows already
appended (each append writes the file). -/
def appendWgerLogs : List (ℕ × List WgerLog) → FileState LiftLog →
    FileState LiftLog × Option PyExc
  | [], lf => (lf, none)
  | (d, logs) :: rest, lf =>
      let step := logs.foldlM
        (fun acc log => lift_log.append_log_entry acc log.exercise_id
          log.weight log.reps log.sets log.rir d) lf
      match step with
      | .error e => (lf, some e)
      | .ok lf' => appendWgerLogs rest lf'

/-- `run_sync` (sync.py lines 36-116).  Fetch Withings and Apple (each
failure only recorded in `failed_sources`, with `{}` as the fetched data),
then persist the `{"withings": ..., "apple": ...}` summary via the DAL
UNCONDITIONALLY (line 69, before any failure check — the comment in the
source says this is so the foreign key exists for strength logs), then fetch
and append the Wger rows, and only then (line 93) test `failed_sources`.
The daily summary at line 107 (`daily_data`) is built and discarded, never
persisted.  Returns `(success, failed_sources)` plus the new storage state;
an uncaught raise from `save_daily_summary` propagates. -/
def run_sync {σ : Type} (dal : Dal σ) (env : SyncEnv) (today : ℕ) (st : σ)
    (lf : FileState LiftLog) :
    Except PyExc ((Bool × List String) × σ × FileState LiftLog) := do
  let (withings_data, failed_w) :=
    match env.withings with
    | .ok v => (v, ([] : List String))
    | .error _ => (.obj [], ["Withings"])
  let (apple_data, failed_a) :=
    match env.apple with
    | .ok v => (v, ([] : List String))
    | .error _ => (.obj [], ["Apple"])
  let st' ← dal.save_daily_summary st
    (.obj [("withings", withings_data), ("apple", apple_data)]) today
  let (lf', failed_g) :=
    match env.wger with
    | .error _ => (lf, ["Wger"])
    | .ok logs =>
        match appendWgerLogs logs lf with
        | (lf', some _) => (lf', ["Wger"])
        | (lf', none) => (lf', [])
  let failed_sources := failed_w ++ failed_a ++ failed_g
  if failed_sources.isEmpty then
    pure ((true, []), st', lf')
  else
    pure ((false, failed_sources), st', lf')

/-- The observable outcome of `run_sync_with_retries`: the returned Bool,
how many times `run_sync` was invoked, how many times `time.sleep(delay)`
ran, and the final storage state. -/
structure RetryOut (σ : Type) where
  ok : Bool
  attempts : ℕ
  sleeps : ℕ
  dal : σ
  lift : FileState LiftLog

/-- The `for i in range(retries)` loop of `run_sync_with_retries`
(sync.py lines 124-132): run an attempt; on success return `True`
immediately; on failure log, `time.sleep(delay)` — even when this was the
final allowed attempt — and continue.  Falling out of the loop returns
`False`. -/
def retryLoop {σ : Type} (dal : Dal σ) (envs : ℕ → SyncEnv) (today : ℕ) :
    ℕ → ℕ → σ → FileState LiftLog → Except PyExc (RetryOut σ)
  | _, 0, st, lf => .ok ⟨false, 0, 0, st, lf⟩
  | i, n + 1, st, lf => do
      let ((success, _failed), st', lf') ← run_sync dal (envs i) today st lf
      if success then
        .ok ⟨true, 1, 0, st', lf'⟩
      else do
        let r ← retryLoop dal envs today (i + 1) n st' lf'
        .ok ⟨r.ok, r.attempts + 1, r.sleeps + 1, r.dal, r.lift⟩

/-- `run_sync_with_retries(dal, retries, delay)` (sync.py lines 119-134),
with the environment of attempt `i` given by `envs i`.  Each recorded sleep
lasts `delay` seconds.  A negative `retries` gives an empty `range`, like
`retries = 0`. -/
def run_sync_with_retries {σ : Type} (dal : Dal σ) (envs : ℕ → SyncEnv)
    (today : ℕ) (retries : ℕ) (st : σ) (lf : FileState LiftLog) :
    Except PyExc (RetryOut σ) :=
  retryLoop dal envs today 0 retries st lf

end sync

/-- One exercise of a `weights` session: `{id, name, weight_target, ...}`.
`name` and `weight_target` are `Option`s because the engine reads them with
`.get` defaults, while `check_recovery` indexes `weight_target` directly
(raising `KeyError` when absent). -/
structure Exercise where
  id : ℕ
  name : Option String
  weight_target : Option ℚ
  deriving DecidableEq

/-- One session of a day.  `weights` sessions built by the plan builder carry
`intensity` and `exercises`; `hiit` carries `name` and `duration_min`;
`rest` carries nothing.  `exercises` is an `Option` because only `weights`
sessions have the key, and `check_recovery` indexes it directly. -/
structure Session where
  type : String
  intensity : Option String
  name : Option String
  duration_min : Option ℚ
  exercises : Option (List Exercise)
  deriving DecidableEq

/-- One day of a training week (`plan_builder` entry:
`{date, week, day, sessions}`). -/
structure PDay where
  date : ℕ
  week : ℕ
  day : String
  sessions : List Session
  deriving DecidableEq

/-- One training week: `{"week_index": ..., "days": [...]}`. -/
structure Week where
  week_index : ℕ
  days : List PDay
  deriving DecidableEq

/-- A 4-week block: `{"start": ..., "weeks": [...]}`. -/
structure Plan where
  start : ℕ
  weeks : List Week
  deriving DecidableEq

/-- The configuration surface consumed by the core (config.py lines 53-69).
All thresholds are rationals standing for the Python floats. -/
structure Settings where
  PROGRESSION_INCREMENT : ℚ
  PROGRESSION_DECREMENT : ℚ
  RHR_ALLOWED_INCREASE : ℚ
  SLEEP_ALLOWED_DECREASE : ℚ
  BODY_AGE_ALLOWED_INCREASE : ℚ
  GLOBAL_BACKOFF_FACTOR : ℚ
  BASELINE_DAYS : ℕ
  RECOVERY_SLEEP_THRESHOLD_MINUTES : ℚ
  RECOVERY_RHR_THRESHOLD : ℚ

/-- The default values from config.py. -/
def defaultSettings : Settings :=
  { PROGRESSION_INCREMENT := 5 / 100
    PROGRESSION_DECREMENT := 5 / 100
    RHR_ALLOWED_INCREASE := 10 / 100
    SLEEP_ALLOWED_DECREASE := 85 / 100
    BODY_AGE_ALLOWED_INCREASE := 2
    GLOBAL_BACKOFF_FACTOR := 90 / 100
    BASELINE_DAYS := 28
    RECOVERY_SLEEP_THRESHOLD_MINUTES := 420
    RECOVERY_RHR_THRESHOLD := 60 }

/-- `statistics.mean`, on the nonempty lists the guarded call sites pass. -/
def pymean (l : List ℚ) : ℚ := l.sum / l.length

/-- Python's `round(x)` for a positive-denominator rational: round half to
even (banker's rounding), which is what CPython's `round` does. -/
def pyRoundHalfEven (q : ℚ) : ℤ :=
  let f := ⌊q⌋
  if q - f < 1 / 2 then f
  else if 1 / 2 < q - f then f + 1
  else if f % 2 = 0 then f else f + 1

/-- Python's `round(x, 2)`. -/
def pyRound2 (q : ℚ) : ℚ := (pyRoundHalfEven (q * 100) : ℚ) / 100

/-- Python's `int(x)` for a float: truncation toward zero. -/
def pyInt (q : ℚ) : ℤ := if 0 ≤ q then ⌊q⌋ else ⌈q⌉

/-- Python truthiness of a `float | None` value: `None` and `0.0` are falsy. -/
def pyTruthy : Option ℚ → Bool
  | none => false
  | some q => q != 0

/-- Rendering of a number inside an f-string note.  The notes are free text
for the audit trail; the exact digit layout of Python's float formatting is
abstracted to exact-rational printing and no theorem below depends on it. -/
def fmtQ (q : ℚ) : String := toString q

/-- `m.get("apple", {}).get("heart_rate", {}).get("resting")` on one stored
daily summary (progression.py line 28), reduced to its numeric payload. -/
def metricRhr (m : JVal) : Option ℚ :=
  match ((m.getD "apple" (.obj [])).getD "heart_rate" (.obj [])).get "resting" with
  | some (.num q) => some q
  | _ => none

/-- `m.get("apple", {}).get("sleep", {}).get("asleep")` (line 31). -/
def metricSleep (m : JVal) : Option ℚ :=
  match ((m.getD "apple" (.obj [])).getD "sleep" (.obj [])).get "asleep" with
  | some (.num q) => some q
  | _ => none

/-- `progression._average` (progression.py lines 10-13): the mean, or `0.0`
for an empty list. -/
def _average (l : List ℚ) : ℚ := if l.isEmpty then 0 else pymean l

/-- The read-only DAL surface `apply_progression` and `build_block` consult:
the lift log and the last-N-days metric accessor. -/
structure MetricsDal where
  load_lift_log : LiftLog
  get_historical_metrics : ℕ → List JVal

namespace progression

/-- The per-exercise body of `apply_progression`'s loop
(progression.py lines 51-107), returning the updated exercise and the
adjustment note appended for it. -/
def progressEx (cfg : Settings) (recovery_good : Bool) (hist : LiftLog)
    (ex : Exercise) : Exercise × String :=
  let ex_id := toString ex.id
  let name := ex.name.getD ("Exercise #" ++ ex_id)
  let entries := (alookup hist ex_id).getD []
  if entries.isEmpty then
    (ex, name ++ ": no history, kept at " ++
      fmtQ (ex.weight_target.getD 0) ++ "kg")
  else
    let last_entries := entries.drop (entries.length - 4)
    let weights := last_entries.filterMap (fun e => e.weight)
    let rirs := last_entries.filterMap (fun e => e.rir)
    if weights.isEmpty then
      (ex, name ++ ": no valid weight data, kept at " ++
        fmtQ (ex.weight_target.getD 0) ++ "kg")
    else
      let avg_weight := pymean weights
      let use_rir := !rirs.isEmpty
      let avg_rir := pymean rirs
      let target := ex.weight_target.getD avg_weight
      let inc₀ := cfg.PROGRESSION_INCREMENT
      let inc₁ :=
        if use_rir then
          if avg_rir ≤ 1 then inc₀ + cfg.PROGRESSION_INCREMENT / 2
          else if avg_rir ≥ 2 then inc₀ / 2
          else inc₀
        else inc₀
      let inc := if recovery_good then inc₁ else inc₁ / 2
      let dec := if recovery_good then cfg.PROGRESSION_DECREMENT
                 else cfg.PROGRESSION_DECREMENT * (3 / 2)
      let detail := (if use_rir then "avg RIR " ++ fmtQ avg_rir else "no RIR")
        ++ ", recovery " ++ (if recovery_good then "good" else "poor")
      if avg_weight ≥ target ∧ (¬use_rir ∨ avg_rir ≤ 2) then
        ({ ex with weight_target := some (pyRound2 (target * (1 + inc))) },
         name ++ ": +" ++ fmtQ (inc * 100) ++ "% (" ++ detail ++ ")")
      else if avg_weight < target ∨ (use_rir ∧ avg_rir > 2) then
        ({ ex with weight_target := some (pyRound2 (target * (1 - dec))) },
         name ++ ": -" ++ fmtQ (dec * 100) ++ "% (" ++ detail ++ ")")
      else
        (ex, name ++ ": no change (" ++ detail ++ ")")

/-- One session of `apply_progression`'s walk (lines 48-50): non-`weights`
sessions are skipped; `session.get("exercises", [])` defaults to empty. -/
def progressSession (cfg : Settings) (recovery_good : Bool) (hist : LiftLog)
    (sess : Session) : Session × List String :=
  if sess.type ≠ "weights" then (sess, [])
  else
    let results := (sess.exercises.getD []).map (progressEx cfg recovery_good hist)
    ({ sess with exercises := sess.exercises.map (fun _ => results.map Prod.fst) },
     results.map Prod.snd)

/-- One day of the walk (`day.get("sessions", [])`, line 48). -/
def progressDay (cfg : Settings) (recovery_good : Bool) (hist : LiftLog)
    (d : PDay) : PDay × List String :=
  let results := d.sessions.map (progressSession cfg recovery_good hist)
  ({ d with sessions := results.map Prod.fst },
   (results.map Prod.snd).flatten)

/-- `apply_progression(dal, week, lift_history)` (progression.py lines
16-109): resolve the lift history (`dal.load_lift_log()` when `None`),
derive the recovery state from the 7-day and `BASELINE_DAYS` metric windows,
then rewrite every exercise of every `weights` session, collecting the
adjustment notes in traversal order. -/
def apply_progression (cfg : Settings) (dal : MetricsDal) (week : Week)
    (lift_history : Option LiftLog) : Week × List String :=
  let hist := lift_history.getD dal.load_lift_log
  let recent := dal.get_historical_metrics 7
  let baseline := dal.get_historical_metrics cfg.BASELINE_DAYS
  let rhr_7 := _average (recent.filterMap metricRhr)
  let sleep_7 := _average (recent.filterMap metricSleep)
  let rhr_baseline := _average (baseline.filterMap metricRhr)
  let sleep_baseline := _average (baseline.filterMap metricSleep)
  let recovery_good :=
    if rhr_baseline ≠ 0 ∧ sleep_baseline ≠ 0 then
      ¬(rhr_7 > rhr_baseline * (1 + cfg.RHR_ALLOWED_INCREASE) ∨
        sleep_7 < sleep_baseline * cfg.SLEEP_ALLOWED_DECREASE)
    else true
  let results := week.days.map (progressDay cfg recovery_good hist)
  ({ week with days := results.map Prod.fst },
   (results.map Prod.snd).flatten)

end progression

/-- Effectful map over a list, short-circuiting on the first raise: the
shape of every `for` loop that mutates element-wise and can raise. -/
def mapME {α β : Type} (f : α → Except PyExc β) : List α → Except PyExc (List β)
  | [] => .ok []
  | a :: rest => do
      let b ← f a
      let bs ← mapME f rest
      pure (b :: bs)

namespace validation

/-- Rule 1 of `check_recovery` (validation.py lines 41-49):
`rhr_baseline and rhr_last_week and rhr_last_week > rhr_baseline * (1 + RHR_ALLOWED_INCREASE)`.
The two truthiness tests short-circuit, so the `>` comparison (the `.error`
arm below, a `TypeError` when an operand is `None`) is only ever evaluated
on two numbers. -/
def rhrRuleFires (cfg : Settings) (rhr_baseline rhr_last_week : Option ℚ) :
    Except PyExc Bool :=
  if pyTruthy rhr_baseline then
    if pyTruthy rhr_last_week then
      match rhr_baseline, rhr_last_week with
      | some b, some l => .ok (l > b * (1 + cfg.RHR_ALLOWED_INCREASE))
      | _, _ => .error .typeError
    else .ok false
  else .ok false

/-- Rule 2 (lines 51-59):
`sleep_baseline and sleep_last_week and sleep_last_week < sleep_baseline * SLEEP_ALLOWED_DECREASE`. -/
def sleepRuleFires (cfg : Settings) (sleep_baseline sleep_last_week : Option ℚ) :
    Except PyExc Bool :=
  if pyTruthy sleep_baseline then
    if pyTruthy sleep_last_week then
      match sleep_baseline, sleep_last_week with
      | some b, some l => .ok (l < b * cfg.SLEEP_ALLOWED_DECREASE)
      | _, _ => .error .typeError
    else .ok false
  else .ok false

/-- The note appended when rule 1 fires (line 46-48). -/
def rhrNote (cfg : Settings) : String :=
  "Global back-off: ↑ RHR >" ++ toString (pyInt (cfg.RHR_ALLOWED_INCREASE * 100))
    ++ "% baseline"

/-- The note appended when rule 2 fires (line 56-58). -/
def sleepNote (cfg : Settings) : String :=
  "Global back-off: ↓ sleep <" ++ toString (pyInt (cfg.SLEEP_ALLOWED_DECREASE * 100))
    ++ "% baseline"

/-- The note appended when rule 3 fires (line 62-64). -/
def bodyAgeNote (cfg : Settings) : String :=
  "Global back-off: body age worsened >" ++ fmtQ cfg.BODY_AGE_ALLOWED_INCREASE
    ++ " years"

/-- `ex["weight_target"] *= settings.GLOBAL_BACKOFF_FACTOR` (line 72):
a `KeyError` when the exercise has no `weight_target` key. -/
def backoffExercise (factor : ℚ) (ex : Exercise) : Except PyExc Exercise :=
  match ex.weight_target with
  | none => .error .keyError
  | some t => .ok { ex with weight_target := some (t * factor) }

/-- Lines 70-72: `weights` sessions index `session["exercises"]` directly
(a `KeyError` when absent); other sessions are untouched. -/
def backoffSession (factor : ℚ) (sess : Session) : Except PyExc Session :=
  if sess.type = "weights" then
    match sess.exercises with
    | none => .error .keyError
    | some exs => do
        let exs' ← mapME (backoffExercise factor) exs
        pure { sess with exercises := some exs' }
  else pure sess

/-- Lines 68-72: `for day in week["days"]: for session in day.get("sessions", []): ...`. -/
def backoffDay (factor : ℚ) (d : PDay) : Except PyExc PDay := do
  let sessions' ← mapME (backoffSession factor) d.sessions
  pure { d with sessions := sessions' }

/-- The whole-week back-off applied when any rule fired. -/
def backoffWeek (factor : ℚ) (week : Week) : Except PyExc Week := do
  let days' ← mapME (backoffDay factor) week.days
  pure { week with days := days' }

/-- `check_recovery` (validation.py lines 13-79).  The last component of the
result is the validation log after the `dal.save_validation_log(tag,
adjustments)` call at lines 75-77 (modelled as appending the pair the DAL
was asked to persist). -/
def check_recovery (cfg : Settings) (week : Week) (current_start_date : String)
    (rhr_baseline rhr_last_week sleep_baseline sleep_last_week : Option ℚ)
    (body_age_delta : ℚ) (vlog : List (String × List String)) :
    Except PyExc (Week × List String × List (String × List String)) := do
  let f1 ← rhrRuleFires cfg rhr_baseline rhr_last_week
  let f2 ← sleepRuleFires cfg sleep_baseline sleep_last_week
  let f3 := body_age_delta > cfg.BODY_AGE_ALLOWED_INCREASE
  let adjustments := (if f1 then [rhrNote cfg] else [])
    ++ (if f2 then [sleepNote cfg] else [])
    ++ (if f3 then [bodyAgeNote cfg] else [])
  let global_backoff := f1 || f2 || f3
  let week' ← if global_backoff then backoffWeek cfg.GLOBAL_BACKOFF_FACTOR week
              else pure week
  let tag := "validation_week" ++ toString week.week_index ++ "_"
    ++ current_start_date
  pure (week', adjustments, vlog ++ [(tag, adjustments)])

end validation

namespace plan_builder

/-- `d.strftime("%a")` for a numeric date code; by convention date code 0 is
a Monday, so the weekday is the residue mod 7. -/
def weekdayName (d : ℕ) : String :=
  match d % 7 with
  | 0 => "Mon"
  | 1 => "Tue"
  | 2 => "Wed"
  | 3 => "Thu"
  | 4 => "Fri"
  | 5 => "Sat"
  | _ => "Sun"

/-- The session list of one day of the skeleton (plan_builder.py lines
44-52): weekday weights (heavy on the recovery-designated days), Wednesday
HIIT ("Blaze", 45 minutes), weekend rest. -/
def daySessions (heavy_days : List String) (day_name : String) : List Session :=
  if day_name ∈ ["Mon", "Tue", "Thu", "Fri"] then
    [{ type := "weights",
       intensity := some (if day_name ∈ heavy_days then "heavy" else "moderate"),
       name := none, duration_min := none, exercises := some [] }]
  else if day_name = "Wed" then
    [{ type := "hiit", intensity := none, name := some "Blaze",
       duration_min := some 45, exercises := none }]
  else
    [{ type := "rest", intensity := none, name := none, duration_min := none,
       exercises := none }]

/-- `build_block(dal, start_date)` (plan_builder.py lines 11-58).  The
recovery signal (`recovery_good`, computed at lines 20-35 from the DAL's
lift log and 7-day metrics) only selects `heavy_days`; it is taken as a
parameter here, and the claims below quantify over it.  The built plan is
also handed to `dal.save_training_plan`; the value returned is the plan. -/
def build_block (recovery_good : Bool) (start_date : ℕ) : Plan :=
  let heavy_days := if recovery_good then ["Mon", "Thu"] else ["Tue", "Fri"]
  let weeks := (List.range 4).map (fun wi =>
    let week_index := wi + 1
    let days := (List.range 7).map (fun day_offset =>
      let d := start_date + ((week_index - 1) * 7 + day_offset)
      let day_name := weekdayName d
      { date := d, week := week_index, day := day_name,
        sessions := daySessions heavy_days day_name : PDay })
    { week_index := week_index, days := days : Week })
  { start := start_date, weeks := weeks }

end plan_builder

/-! ### Derived views and helper definitions used by the theorems -/

/-- The `JsonDal` backend packaged as the DAL surface `run_sync` consumes. -/
def jsonDal : Dal JsonState :=
  { save_daily_summary := fun st s d => JsonDal.save_daily_summary st s d }

/-- The summary dict `run_sync` hands to `dal.save_daily_summary` (sync.py
line 69): the fetched Withings and Apple payloads, each `{}` when its fetch
raised. -/
def syncSummary (env : SyncEnv) : JVal :=
  .obj [("withings", match env.withings with | .ok v => v | .error _ => .obj []),
        ("apple", match env.apple with | .ok v => v | .error _ => .obj [])]

/-- Outcome of the Wger stage of a sync attempt: the lift-log file after the
appends, and the failure marker. -/
def wgerOutcome (env : SyncEnv) (lf : FileState LiftLog) :
    FileState LiftLog × List String :=
  match env.wger with
  | .error _ => (lf, ["Wger"])
  | .ok logs =>
      match sync.appendWgerLogs logs lf with
      | (lf', some _) => (lf', ["Wger"])
      | (lf', none) => (lf', [])

/-- The `failed_sources` list a sync attempt ends with. -/
def syncFailed (env : SyncEnv) (lf : FileState LiftLog) : List String :=
  (match env.withings with | .ok _ => [] | .error _ => ["Withings"])
    ++ (match env.apple with | .ok _ => [] | .error _ => ["Apple"])
    ++ (wgerOutcome env lf).2

/-- The records of a JSON history dict in chronological (date-ascending)
order: the sorted keys, each resolved to its record. -/
def jsonChronological (hist : List (ℕ × JVal)) : List JVal :=
  ((hist.map Prod.fst).insertionSort (· ≤ ·)).map
    (fun d => (alookup hist d).getD (.obj []))

/-- The records of the `daily_summary` table in chronological order. -/
def pgChronological (st : PgState) : List JVal :=
  (PostgresDal.sortedAsc st.daily).map (fun p => PostgresDal.row_to_summary p.2)

/-- Observer separating reconstruction results from arbitrary summaries:
the number of keys of the `withings` sub-dict. -/
def obsWithings : Except PyExc (Option JVal) → ℕ
  | .ok (some v) => (v.getD "withings" .null).nfields
  | _ => 0

/-- `True` of an exercise whose `weight_target` key is present with value
at least `c`. -/
def exTargetGe (c : ℚ) (ex : Exercise) : Bool :=
  match ex.weight_target with
  | none => false
  | some t => c ≤ t

/-- `True` of an exercise whose `weight_target` key is present and positive. -/
def exTargetPos (ex : Exercise) : Bool :=
  match ex.weight_target with
  | none => false
  | some t => 0 < t

/-- `p` holds of every exercise of a `weights` session, which must carry an
`exercises` list; non-weights sessions pass vacuously. -/
def sessOK (p : Exercise → Bool) (s : Session) : Bool :=
  if s.type = "weights" then
    match s.exercises with
    | none => false
    | some exs => exs.all p
  else true

/-- `p` holds of every exercise of every `weights` session of the week, and
every `weights` session carries an `exercises` list. -/
def weekWeightsAll (p : Exercise → Bool) (w : Week) : Bool :=
  w.days.all (fun d => d.sessions.all (sessOK p))

/-- Every `weights` session carries an `exercises` list whose exercises all
have a `weight_target` key (what `check_recovery`'s back-off loop indexes). -/
def weekBackoffSafe (w : Week) : Bool :=
  weekWeightsAll (fun ex => ex.weight_target.isSome) w

/-- The pure form of the global back-off: every `weight_target` of every
`weights` session multiplied by `factor` exactly once; other sessions and
all other fields untouched. -/
def scaleWeek (factor : ℚ) (w : Week) : Week :=
  { w with days := w.days.map (fun d =>
      { d with sessions := d.sessions.map (fun s =>
          if s.type = "weights" then
            { s with exercises := s.exercises.map (fun exs => exs.map (fun ex =>
                { ex with weight_target := ex.weight_target.map (· * factor) })) }
          else s) }) }

/-- Rule 1 of `check_recovery` as a pure Boolean: it can only fire when both
averages are present and nonzero. -/
def rhrFiresB (cfg : Settings) (rb rl : Option ℚ) : Bool :=
  match rb, rl with
  | some b, some l => b ≠ 0 ∧ l ≠ 0 ∧ l > b * (1 + cfg.RHR_ALLOWED_INCREASE)
  | _, _ => false

/-- Rule 2 of `check_recovery` as a pure Boolean. -/
def sleepFiresB (cfg : Settings) (sb sl : Option ℚ) : Bool :=
  match sb, sl with
  | some b, some l => b ≠ 0 ∧ l ≠ 0 ∧ l < b * cfg.SLEEP_ALLOWED_DECREASE
  | _, _ => false

/-- The plan with every session's `intensity` label erased: the "skeleton
shape" that the recovery signal is not supposed to change. -/
def eraseIntensity (p : Plan) : Plan :=
  { p with weeks := p.weeks.map (fun w =>
      { w with days := w.days.map (fun d =>
          { d with sessions := d.sessions.map (fun s =>
              { s with intensity := none }) }) }) }

/-- All `weight_target` values of the `weights` sessions of a week, in
traversal order. -/
def weekTargets (w : Week) : List ℚ :=
  (w.days.map (fun d =>
    (d.sessions.map (fun s =>
      if s.type = "weights" then
        (s.exercises.getD []).filterMap (fun ex => ex.weight_target)
      else [])).flatten)).flatten

/-- `True` when at least one of the three recovery rules fires (with the
truthiness guards the code applies to the RHR and sleep averages). -/
def firesAny (cfg : Settings) (rb rl sb sl : Option ℚ) (delta : ℚ) : Bool :=
  rhrFiresB cfg rb rl || sleepFiresB cfg sb sl ||
    decide (delta > cfg.BODY_AGE_ALLOWED_INCREASE)

/-- The adjustment notes of one `check_recovery` pass: one note per firing
rule, in rule order. -/
def recoveryNotes (cfg : Settings) (rb rl sb sl : Option ℚ) (delta : ℚ) :
    List String :=
  (if rhrFiresB cfg rb rl then [validation.rhrNote cfg] else []) ++
  (if sleepFiresB cfg sb sl then [validation.sleepNote cfg] else []) ++
  (if delta > cfg.BODY_AGE_ALLOWED_INCREASE then [validation.bodyAgeNote cfg]
   else [])

/-! ### Concrete inputs used by witnesses and counterexamples -/

/-- A sync environment where the Withings fetch raises, the Apple fetch
returns `{}`, and the Wger fetch returns no log rows. -/
def envWithingsDown : SyncEnv :=
  { withings := .error .osError, apple := .ok (.obj []), wger := .ok [] }

/-- The summary `run_sync` persists under `envWithingsDown`. -/
def sumWA : JVal := .obj [("withings", .obj []), ("apple", .obj [])]

/-- Empty JSON storage: no files on disk yet. -/
def stJ0 : JsonState := { liftLog := .absent, history := .absent, daily := [] }

/-- JSON storage holding exactly one daily summary, for date 3. -/
def stJ1 : JsonState :=
  { liftLog := .absent, history := .good [(3, .obj [])], daily := [] }

/-- The summary from the repository's own round-trip test
(`tests/test_json_dal.py`): `{"withings": {"weight": 80}, "apple": {"steps": 1000}}`. -/
def sumTest : JVal :=
  .obj [("withings", .obj [("weight", .num 80)]),
        ("apple", .obj [("steps", .num 1000)])]

/-- The `daily_summary` row that `save_daily_summary(sumTest, d)` inserts. -/
def rowTest : PgRow :=
  { weight_kg := some 80, body_fat_pct := none, muscle_mass_kg := none,
    water_pct := none, steps := some 1000, exercise_minutes := none,
    calories_active := none, calories_resting := none, stand_minutes := none,
    distance_m := none, hr_resting := none, hr_avg := none, hr_max := none,
    hr_min := none, sleep_total_minutes := none, sleep_asleep_minutes := none,
    sleep_rem_minutes := none, sleep_deep_minutes := none,
    sleep_core_minutes := none, sleep_awake_minutes := none }

/-- An empty, connected database. -/
def pgSt0 : PgState := { connected := true, daily := [], strength := [] }

/-- A database whose connection pool is down but whose tables hold a
strength row. -/
def pgDead : PgState :=
  { connected := false, daily := [],
    strength := [{ summary_date := 1, exercise_id := 2, reps := some 5,
                   weight_kg := some 100, rir := none }] }

/-- A one-exercise training week: one Monday with one `weights` session
holding one exercise (`Test`) at the given starting target — the shape of
the repository's own progression tests. -/
def weekOneEx (t : ℚ) : Week :=
  { week_index := 1,
    days := [{ date := 0, week := 1, day := "Mon",
               sessions := [{ type := "weights", intensity := some "moderate",
                              name := none, duration_min := none,
                              exercises := some [{ id := 1, name := some "Test",
                                                   weight_target := some t }] }] }] }

/-- A lift history of four sets of 50 kg (below a 100 kg target) for
exercise 1, with no RIR data. -/
def hist50 : LiftLog :=
  [("1", [{ date := 2, reps := some 5, weight := some 50, sets := none, rir := none },
          { date := 3, reps := some 5, weight := some 50, sets := none, rir := none },
          { date := 4, reps := some 5, weight := some 50, sets := none, rir := none },
          { date := 5, reps := some 5, weight := some 50, sets := none, rir := none }])]

/-- A DAL view with no lift log and no stored metrics (empty history). -/
def dalEmpty : MetricsDal :=
  { load_lift_log := [], get_historical_metrics := fun _ => [] }

/-- The default configuration with a degenerate 100% decrement
(`PROGRESSION_DECREMENT = 1.0`), one of the configurations the spec claims
the engine clamps or rejects. -/
def cfgDeg : Settings := { defaultSettings with PROGRESSION_DECREMENT := 1 }

/-! ### General lemmas about the modelling primitives -/

theorem alookup_cons {κ α : Type} [DecidableEq κ] (k₀ k : κ) (w : α)
    (rest : List (κ × α)) :
    alookup ((k₀, w) :: rest) k = if k₀ = k then some w else alookup rest k :=
  rfl

theorem upsert_cons {κ α : Type} [DecidableEq κ] (k₀ k : κ) (w v : α)
    (rest : List (κ × α)) :
    upsert ((k₀, w) :: rest) k v =
      if k₀ = k then (k, v) :: rest else (k₀, w) :: upsert rest k v :=
  rfl

theorem alookup_upsert_self {κ α : Type} [DecidableEq κ]
    (l : List (κ × α)) (k : κ) (v : α) : alookup (upsert l k v) k = some v := by
  induction l with
  | nil => simp [upsert, alookup]
  | cons p rest ih =>
      obtain ⟨k₀, w⟩ := p
      rw [upsert_cons]
      by_cases h : k₀ = k
      · rw [if_pos h, alookup_cons, if_pos rfl]
      · rw [if_neg h, alookup_cons, if_neg h, ih]

theorem alookup_upsert_ne {κ α : Type} [DecidableEq κ]
    (l : List (κ × α)) (k k' : κ) (v : α) (h : k' ≠ k) :
    alookup (upsert l k v) k' = alookup l k' := by
  induction l with
  | nil =>
      show alookup [(k, v)] k' = none
      rw [alookup_cons, if_neg (fun he => h he.symm)]
      rfl
  | cons p rest ih =>
      obtain ⟨k₀, w⟩ := p
      rw [upsert_cons]
      by_cases h0 : k₀ = k
      · rw [if_pos h0, alookup_cons, alookup_cons,
          if_neg (fun he => h he.symm), if_neg (h0 ▸ fun he => h he.symm)]
      · rw [if_neg h0, alookup_cons, alookup_cons, ih]

theorem mem_keys_upsert {κ α : Type} [DecidableEq κ]
    {l : List (κ × α)} {k x : κ} {v : α}
    (hx : x ∈ (upsert l k v).map Prod.fst) :
    x ∈ l.map Prod.fst ∨ x = k := by
  induction l with
  | nil => simpa [upsert] using hx
  | cons p rest ih =>
      obtain ⟨k₀, w⟩ := p
      rw [upsert_cons] at hx
      by_cases h0 : k₀ = k
      · rw [if_pos h0] at hx
        simp only [List.map_cons, List.mem_cons] at hx ⊢
        rcases hx with h1 | h2
        · exact Or.inr (h1.trans h0.symm ▸ h1)
        · exact Or.inl (Or.inr h2)
      · rw [if_neg h0] at hx
        simp only [List.map_cons, List.mem_cons] at hx ⊢
        rcases hx with h1 | h2
        · exact Or.inl (Or.inl h1)
        · rcases ih h2 with h3 | h3
          · exact Or.inl (Or.inr h3)
          · exact Or.inr h3

theorem upsert_map_fst_nodup {κ α : Type} [DecidableEq κ]
    {l : List (κ × α)} (k : κ) (v : α) (h : (l.map Prod.fst).Nodup) :
    ((upsert l k v).map Prod.fst).Nodup := by
  induction l with
  | nil => simp [upsert]
  | cons p rest ih =>
      obtain ⟨k₀, w⟩ := p
      simp only [List.map_cons, List.nodup_cons] at h
      rw [upsert_cons]
      by_cases h0 : k₀ = k
      · rw [if_pos h0]
        simp only [List.map_cons, List.nodup_cons]
        exact ⟨h0 ▸ h.1, h.2⟩
      · rw [if_neg h0]
        simp only [List.map_cons, List.nodup_cons]
        refine ⟨fun hmem => ?_, ih h.2⟩
        rcases mem_keys_upsert hmem with h1 | h1
        · exact h.1 h1
        · exact h0 h1

theorem alookup_eq_some_of_mem {κ α : Type} [DecidableEq κ]
    {l : List (κ × α)} {k : κ} {v : α} (hnd : (l.map Prod.fst).Nodup)
    (hm : (k, v) ∈ l) : alookup l k = some v := by
  induction l with
  | nil => simp at hm
  | cons p rest ih =>
      obtain ⟨k₀, w⟩ := p
      simp only [List.map_cons, List.nodup_cons] at hnd
      rw [alookup_cons]
      rcases List.mem_cons.mp hm with h | h
      · injection h with h1 h2
        rw [if_pos h1.symm, h2]
      · have hne : k₀ ≠ k := by
          intro he
          subst he
          exact hnd.1 (List.mem_map.2 ⟨(k₀, v), h, rfl⟩)
        rw [if_neg hne, ih hnd.2 h]

theorem mem_of_alookup_eq_some {κ α : Type} [DecidableEq κ]
    {l : List (κ × α)} {k : κ} {v : α} (h : alookup l k = some v) :
    (k, v) ∈ l := by
  induction l with
  | nil => simp [alookup] at h
  | cons p rest ih =>
      obtain ⟨k₀, w⟩ := p
      rw [alookup_cons] at h
      by_cases h0 : k₀ = k
      · rw [if_pos h0] at h
        injection h with h1
        exact h0 ▸ h1 ▸ List.mem_cons_self _ _
      · rw [if_neg h0] at h
        exact List.mem_cons_of_mem _ (ih h)

theorem alookup_eq_none_iff {κ α : Type} [DecidableEq κ]
    {l : List (κ × α)} {k : κ} :
    alookup l k = none ↔ k ∉ l.map Prod.fst := by
  induction l with
  | nil => simp [alookup]
  | cons p rest ih =>
      obtain ⟨k₀, w⟩ := p
      rw [alookup_cons]
      by_cases h0 : k₀ = k
      · rw [if_pos h0]
        simp [h0]
      · rw [if_neg h0]
        simp [ih, Ne.symm h0]

theorem alookup_perm {κ α : Type} [DecidableEq κ]
    {l l' : List (κ × α)} (hp : l.Perm l') (hnd : (l.map Prod.fst).Nodup)
    (k : κ) : alookup l k = alookup l' k := by
  have hnd' : (l'.map Prod.fst).Nodup := ((hp.map Prod.fst).nodup_iff).mp hnd
  cases h : alookup l k with
  | some v =>
      exact (alookup_eq_some_of_mem hnd' (hp.mem_iff.mp
        (mem_of_alookup_eq_some h))).symm
  | none =>
      have hnot : k ∉ l'.map Prod.fst := fun hm =>
        (alookup_eq_none_iff.mp h) ((hp.map Prod.fst).mem_iff.mpr hm)
      exact (alookup_eq_none_iff.mpr hnot).symm

theorem mapME_ok_of_forall {α β : Type} {f : α → Except PyExc β} {g : α → β} :
    ∀ {l : List α}, (∀ a ∈ l, f a = .ok (g a)) → mapME f l = .ok (l.map g)
  | [], _ => by simp [mapME]
  | a :: rest, h => by
      have ha := h a (List.mem_cons_self a rest)
      have ih := mapME_ok_of_forall (fun b hb => h b (List.mem_cons_of_mem _ hb))
      show (do
        let b ← f a
        let bs ← mapME f rest
        pure (b :: bs) : Except PyExc (List β)) = _
      rw [ha, ih]
      rfl

theorem mapME_ok_mem {α β : Type} {f : α → Except PyExc β} :
    ∀ {l : List α} {l' : List β}, mapME f l = .ok l' →
      ∀ b ∈ l', ∃ a ∈ l, f a = .ok b
  | [], l', h => by
      simp only [mapME, Except.ok.injEq] at h
      subst h
      intro b hb
      simp at hb
  | a :: rest, l', h => by
      rw [show mapME f (a :: rest) = (do
        let b ← f a
        let bs ← mapME f rest
        pure (b :: bs) : Except PyExc (List β)) from rfl] at h
      cases ha : f a with
      | error e =>
          rw [ha] at h
          have h' : (Except.error e : Except PyExc (List β)) = Except.ok l' := h
          exact Except.noConfusion h'
      | ok v =>
          rw [ha] at h
          cases hrest : mapME f rest with
          | error e =>
              rw [hrest] at h
              have h' : (Except.error e : Except PyExc (List β)) = Except.ok l' := h
              exact Except.noConfusion h'
          | ok vs =>
              rw [hrest] at h
              have h' : (Except.ok (v :: vs) : Except PyExc (List β)) =
                Except.ok l' := h
              injection h' with hv
              subst hv
              intro b hb
              rcases List.mem_cons.mp hb with hb | hb
              · exact ⟨a, List.mem_cons_self _ _, hb ▸ ha⟩
              · obtain ⟨x, hx, hfx⟩ := mapME_ok_mem hrest b hb
                exact ⟨x, List.mem_cons_of_mem _ hx, hfx⟩

theorem pgTry_ok {α : Type} (fallback : α) (e : Except PyExc α) :
    ∃ v, pgTry fallback e = .ok v := by
  cases e with
  | ok v => exact ⟨v, rfl⟩
  | error _ => exact ⟨fallback, rfl⟩

theorem pyRoundHalfEven_pos {q : ℚ} (h : 1 / 2 < q) : 0 < pyRoundHalfEven q := by
  unfold pyRoundHalfEven
  dsimp only
  have hfl : (⌊q⌋ : ℚ) ≤ q := Int.floor_le q
  have hfu : q < ⌊q⌋ + 1 := Int.lt_floor_add_one q
  have h0 : (0 : ℤ) ≤ ⌊q⌋ := Int.le_floor.mpr (by push_cast; linarith)
  split_ifs with h1 h2 h3
  · have hq : (0 : ℚ) < ⌊q⌋ := by linarith
    exact_mod_cast hq
  · omega
  · have he : q - ⌊q⌋ = 1 / 2 := le_antisymm (not_lt.mp h2) (not_lt.mp h1)
    have hq : (0 : ℚ) < ⌊q⌋ := by linarith
    exact_mod_cast hq
  · omega

theorem pyRound2_pos {q : ℚ} (h : 1 / 200 < q) : 0 < pyRound2 q := by
  unfold pyRound2
  have hq : 1 / 2 < q * 100 := by linarith
  have hn : 0 < pyRoundHalfEven (q * 100) := pyRoundHalfEven_pos hq
  have hcast : (0 : ℚ) < (pyRoundHalfEven (q * 100) : ℚ) := by exact_mod_cast hn
  positivity

theorem sortedDesc_eq_reverse {rows : List (ℕ × PgRow)}
    (hnd : (rows.map Prod.fst).Nodup) :
    PostgresDal.sortedDesc rows = (PostgresDal.sortedAsc rows).reverse := by
  have hpw : rows.Pairwise (fun a b : ℕ × PgRow => a.1 ≠ b.1) := by
    have := hnd
    rwa [List.Nodup, List.pairwise_map] at this
  haveI : IsTotal (ℕ × PgRow) (fun a b : ℕ × PgRow => b.1 ≤ a.1) :=
    ⟨fun a b => (le_total b.1 a.1)⟩
  haveI : IsTrans (ℕ × PgRow) (fun a b : ℕ × PgRow => b.1 ≤ a.1) :=
    ⟨fun _ _ _ hab hbc => le_trans hbc hab⟩
  haveI : IsTotal (ℕ × PgRow) (fun a b : ℕ × PgRow => a.1 ≤ b.1) :=
    ⟨fun a b => (le_total a.1 b.1)⟩
  haveI : IsTrans (ℕ × PgRow) (fun a b : ℕ × PgRow => a.1 ≤ b.1) :=
    ⟨fun _ _ _ hab hbc => le_trans hab hbc⟩
  haveI : IsAntisymm (ℕ × PgRow) (fun a b : ℕ × PgRow => b.1 < a.1) :=
    ⟨fun a b h1 h2 => absurd (lt_trans h1 h2) (lt_irrefl _)⟩
  have hperm : List.Perm (PostgresDal.sortedDesc rows) ((PostgresDal.sortedAsc rows).reverse) := by
    refine (List.perm_insertionSort _ rows).trans ?_
    exact ((List.reverse_perm _).trans (List.perm_insertionSort _ rows)).symm
  have hsymm : ∀ {x y : ℕ × PgRow}, x.1 ≠ y.1 → y.1 ≠ x.1 :=
    fun hxy => Ne.symm hxy
  have hs1 : List.Sorted (fun a b : ℕ × PgRow => b.1 < a.1) (PostgresDal.sortedDesc rows) := by
    have hsorted : List.Sorted (fun a b : ℕ × PgRow => b.1 ≤ a.1) (PostgresDal.sortedDesc rows) :=
      List.sorted_insertionSort _ rows
    have hne : (PostgresDal.sortedDesc rows).Pairwise (fun a b : ℕ × PgRow => a.1 ≠ b.1) :=
      ((List.Perm.pairwise_iff hsymm ((List.perm_insertionSort _ rows))).mpr hpw)
    exact (hsorted.and hne).imp (fun hab => lt_of_le_of_ne hab.1 (Ne.symm hab.2))
  have hs2 : List.Sorted (fun a b : ℕ × PgRow => b.1 < a.1) ((PostgresDal.sortedAsc rows).reverse) := by
    have hsorted : List.Sorted (fun a b : ℕ × PgRow => a.1 ≤ b.1) (PostgresDal.sortedAsc rows) :=
      List.sorted_insertionSort _ rows
    have hne : (PostgresDal.sortedAsc rows).Pairwise (fun a b : ℕ × PgRow => a.1 ≠ b.1) :=
      ((List.Perm.pairwise_iff hsymm ((List.perm_insertionSort _ rows))).mpr hpw)
    have hlt : List.Sorted (fun a b : ℕ × PgRow => a.1 < b.1) (PostgresDal.sortedAsc rows) :=
      (hsorted.and hne).imp (fun hab => lt_of_le_of_ne hab.1 hab.2)
    exact List.pairwise_reverse.mpr hlt
  exact List.eq_of_perm_of_sorted hperm hs1 hs2

/-! ### Claim C1 — sync is NOT all-or-nothing -/

/-- C1 (counterexample).  The claim says that when a source fails, "no daily
summary … is persisted through the Data Access Layer during that attempt;
storage is left exactly as it was before the attempt."  Concretely: on empty
storage, with the Withings fetch raising and the other two sources clean,
`run_sync` does return `(False, ["Withings"])` — but the daily summary
`{"withings": {}, "apple": {}}` has been persisted (sync.py line 69 runs
before the line 93 failure check): the history read back after the attempt
differs from the history before it. -/
theorem c1_counterexample :
    sync.run_sync jsonDal envWithingsDown 5 stJ0 .absent =
      .ok ((false, ["Withings"]),
        { liftLog := .absent, history := .good [(5, sumWA)],
          daily := [(5, .good sumWA)] }, .absent) ∧
    JsonDal.load_history
      { liftLog := .absent, history := .good [(5, sumWA)],
        daily := [(5, .good sumWA)] } ≠ JsonDal.load_history stJ0 := by
  constructor
  · rfl
  · intro h
    simp [JsonDal.load_history, jsonReadFile, stJ0] at h

/-- C1 (amended).  `run_sync` returns `(False, failed_sources)` whenever at
least one source failed, but the attempt is not all-or-nothing: the
Withings/Apple daily summary is persisted through the DAL unconditionally,
before the failure check (so that the foreign key for strength rows exists),
and the Wger strength-log rows fetched by a successful Wger call are
appended regardless of the other sources' failures.  Formally, whenever
`run_sync` returns, its result state is the one obtained by saving the
(possibly partial) summary, its failure list is the per-source failure list,
its lift-log file reflects the Wger appends, and success is reported exactly
when that list is empty. -/
theorem c1_partial_persist {σ : Type} (dal : Dal σ) (env : SyncEnv)
    (today : ℕ) (st : σ) (lf : FileState LiftLog)
    (ret : (Bool × List String) × σ × FileState LiftLog)
    (h : sync.run_sync dal env today st lf = .ok ret) :
    dal.save_daily_summary st (syncSummary env) today = .ok ret.2.1 ∧
    ret.1.2 = syncFailed env lf ∧
    ret.2.2 = (wgerOutcome env lf).1 ∧
    (ret.1.1 = true ↔ ret.1.2 = []) := by
  obtain ⟨ew, ea, eg⟩ := env
  cases ew with
  | ok wv =>
    cases ea with
    | ok av =>
      simp only [sync.run_sync] at h
      cases hsave : dal.save_daily_summary st
          (.obj [("withings", wv), ("apple", av)]) today with
      | error e =>
          rw [hsave] at h
          have h' : (Except.error e : Except PyExc _) = .ok ret := h
          exact Except.noConfusion h'
      | ok st' =>
          rw [hsave] at h
          cases eg with
          | error e =>
              have h' : Except.ok ((false, ["Wger"]), st', lf) = .ok ret := h
              injection h' with h'
              subst h'
              simpa [syncSummary, syncFailed, wgerOutcome] using hsave
          | ok logs =>
              cases happ : sync.appendWgerLogs logs lf with
              | mk lf' oe =>
                simp only [happ] at h
                cases oe with
                | some e =>
                    have h' : Except.ok ((false, ["Wger"]), st', lf') = .ok ret := h
                    injection h' with h'
                    subst h'
                    simpa [syncSummary, syncFailed, wgerOutcome, happ] using hsave
                | none =>
                    have h' : Except.ok ((true, ([] : List String)), st', lf') = .ok ret := h
                    injection h' with h'
                    subst h'
                    simpa [syncSummary, syncFailed, wgerOutcome, happ] using hsave
    | error e2 =>
      simp only [sync.run_sync] at h
      cases hsave : dal.save_daily_summary st
          (.obj [("withings", wv), ("apple", .obj [])]) today with
      | error e =>
          rw [hsave] at h
          have h' : (Except.error e : Except PyExc _) = .ok ret := h
          exact Except.noConfusion h'
      | ok st' =>
          rw [hsave] at h
          cases eg with
          | error e =>
              have h' : Except.ok ((false, ["Apple", "Wger"]), st', lf) = .ok ret := h
              injection h' with h'
              subst h'
              simpa [syncSummary, syncFailed, wgerOutcome] using hsave
          | ok logs =>
              cases happ : sync.appendWgerLogs logs lf with
              | mk lf' oe =>
                simp only [happ] at h
                cases oe with
                | some e =>
                    have h' : Except.ok ((false, ["Apple", "Wger"]), st', lf') = .ok ret := h
                    injection h' with h'
                    subst h'
                    simpa [syncSummary, syncFailed, wgerOutcome, happ] using hsave
                | none =>
                    have h' : Except.ok ((false, ["Apple"]), st', lf') = .ok ret := h
                    injection h' with h'
                    subst h'
                    simpa [syncSummary, syncFailed, wgerOutcome, happ] using hsave
  | error e1 =>
    cases ea with
    | ok av =>
      simp only [sync.run_sync] at h
      cases hsave : dal.save_daily_summary st
          (.obj [("withings", .obj []), ("apple", av)]) today with
      | error e =>
          rw [hsave] at h
          have h' : (Except.error e : Except PyExc _) = .ok ret := h
          exact Except.noConfusion h'
      | ok st' =>
          rw [hsave] at h
          cases eg with
          | error e =>
              have h' : Except.ok ((false, ["Withings", "Wger"]), st', lf) = .ok ret := h
              injection h' with h'
              subst h'
              simpa [syncSummary, syncFailed, wgerOutcome] using hsave
          | ok logs =>
              cases happ : sync.appendWgerLogs logs lf with
              | mk lf' oe =>
                simp only [happ] at h
                cases oe with
                | some e =>
                    have h' : Except.ok ((false, ["Withings", "Wger"]), st', lf') = .ok ret := h
                    injection h' with h'
                    subst h'
                    simpa [syncSummary, syncFailed, wgerOutcome, happ] using hsave
                | none =>
                    have h' : Except.ok ((false, ["Withings"]), st', lf') = .ok ret := h
                    injection h' with h'
                    subst h'
                    simpa [syncSummary, syncFailed, wgerOutcome, happ] using hsave
    | error e2 =>
      simp only [sync.run_sync] at h
      cases hsave : dal.save_daily_summary st
          (.obj [("withings", .obj []), ("apple", .obj [])]) today with
      | error e =>
          rw [hsave] at h
          have h' : (Except.error e : Except PyExc _) = .ok ret := h
          exact Except.noConfusion h'
      | ok st' =>
          rw [hsave] at h
          cases eg with
          | error e =>
              have h' : Except.ok ((false, ["Withings", "Apple", "Wger"]), st', lf) = .ok ret := h
              injection h' with h'
              subst h'
              simpa [syncSummary, syncFailed, wgerOutcome] using hsave
          | ok logs =>
              cases happ : sync.appendWgerLogs logs lf with
              | mk lf' oe =>
                simp only [happ] at h
                cases oe with
                | some e =>
                    have h' : Except.ok ((false, ["Withings", "Apple", "Wger"]), st', lf') = .ok ret := h
                    injection h' with h'
                    subst h'
                    simpa [syncSummary, syncFailed, wgerOutcome, happ] using hsave
                | none =>
                    have h' : Except.ok ((false, ["Withings", "Apple"]), st', lf') = .ok ret := h
                    injection h' with h'
                    subst h'
                    simpa [syncSummary, syncFailed, wgerOutcome, happ] using hsave

/-- C1 (witness): the amended theorem applied to the concrete failing run of
`c1_counterexample`'s scenario. -/
theorem c1_witness :
    jsonDal.save_daily_summary stJ0 (syncSummary envWithingsDown) 5 =
      .ok { liftLog := .absent, history := .good [(5, sumWA)],
            daily := [(5, .good sumWA)] } ∧
    ["Withings"] = syncFailed envWithingsDown .absent ∧
    (FileState.absent : FileState LiftLog) = (wgerOutcome envWithingsDown .absent).1 ∧
    (false = true ↔ ["Withings"] = ([] : List String)) :=
  c1_partial_persist jsonDal envWithingsDown 5 stJ0 .absent
    ((false, ["Withings"]),
      { liftLog := .absent, history := .good [(5, sumWA)],
        daily := [(5, .good sumWA)] }, .absent) rfl

/-! ### Claim C2 — the retry loop runs `retries` attempts, not `retries + 1` -/

theorem retryLoop_spec {σ : Type} (dal : Dal σ) (envs : ℕ → SyncEnv)
    (today : ℕ) :
    ∀ (n i : ℕ) (st : σ) (lf : FileState LiftLog) (r : sync.RetryOut σ),
      sync.retryLoop dal envs today i n st lf = .ok r →
        r.attempts ≤ n ∧
        (r.ok = true → 1 ≤ r.attempts ∧ r.sleeps + 1 = r.attempts) ∧
        (r.ok = false → r.attempts = n ∧ r.sleeps = n)
  | 0, i, st, lf, r, h => by
      simp only [sync.retryLoop, Except.ok.injEq] at h
      subst h
      refine ⟨Nat.le_refl 0, ?_, ?_⟩
      · intro hok; exact absurd hok (by simp)
      · intro _; exact ⟨rfl, rfl⟩
  | n + 1, i, st, lf, r, h => by
      rw [sync.retryLoop] at h
      cases hrun : sync.run_sync dal (envs i) today st lf with
      | error e =>
          rw [hrun] at h
          have h' : (Except.error e : Except PyExc (sync.RetryOut σ)) = .ok r := h
          exact Except.noConfusion h'
      | ok res =>
          rw [hrun] at h
          obtain ⟨⟨success, failed⟩, st', lf'⟩ := res
          cases success with
          | true =>
              have h' : Except.ok (⟨true, 1, 0, st', lf'⟩ : sync.RetryOut σ) = .ok r := h
              injection h' with h'
              subst h'
              exact ⟨Nat.le_add_left 1 n, fun _ => ⟨Nat.le_refl 1, rfl⟩,
                fun hko => by simp at hko⟩
          | false =>
              have h2 : (do
                  let r ← sync.retryLoop dal envs today (i + 1) n st' lf'
                  Except.ok (⟨r.ok, r.attempts + 1, r.sleeps + 1, r.dal, r.lift⟩ :
                    sync.RetryOut σ)) = Except.ok r := h
              clear h
              cases hrec : sync.retryLoop dal envs today (i + 1) n st' lf' with
              | error e =>
                  rw [hrec] at h2
                  have h' : (Except.error e : Except PyExc (sync.RetryOut σ)) = .ok r := h2
                  exact Except.noConfusion h'
              | ok r' =>
                  rw [hrec] at h2
                  have h : (do
                      let r ← (Except.ok r' : Except PyExc (sync.RetryOut σ))
                      Except.ok (⟨r.ok, r.attempts + 1, r.sleeps + 1, r.dal, r.lift⟩ :
                        sync.RetryOut σ)) = Except.ok r := h2
                  have h' : Except.ok
                      (⟨r'.ok, r'.attempts + 1, r'.sleeps + 1, r'.dal, r'.lift⟩ :
                        sync.RetryOut σ) = .ok r := h
                  injection h' with h'
                  subst h'
                  obtain ⟨ih1, ih2, ih3⟩ :=
                    retryLoop_spec dal envs today n (i + 1) st' lf' r' hrec
                  dsimp only
                  refine ⟨Nat.succ_le_succ ih1, ?_, ?_⟩
                  · intro hok
                    obtain ⟨h1, h2⟩ := ih2 hok
                    exact ⟨Nat.le_succ_of_le h1, by omega⟩
                  · intro hko
                    obtain ⟨h1, h2⟩ := ih3 hko
                    exact ⟨by omega, by omega⟩

/-- C2 (counterexample).  The claim says `run_sync_with_retries(max_retries,
delay)` "invokes run_sync at most max_retries+1 times … returns False only
after all allowed attempts have failed", sleeping only *between* consecutive
attempts.  Concretely, `retries = 1` with a permanently failing Withings
source: the loop `for i in range(retries)` (sync.py line 124) makes exactly
ONE `run_sync` call — not the 2 = 1 + 1 the claim allows before giving up —
and sleeps once, after the final (only) attempt, where the claim's
"between consecutive attempts" implies zero sleeps. -/
theorem c2_counterexample :
    sync.run_sync_with_retries jsonDal (fun _ => envWithingsDown) 5 1 stJ0 .absent =
      .ok ⟨false, 1, 1,
        { liftLog := .absent, history := .good [(5, sumWA)],
          daily := [(5, .good sumWA)] }, .absent⟩ ∧
    (1 : ℕ) ≠ 1 + 1 ∧ (1 : ℕ) ≠ 0 := by
  exact ⟨rfl, by decide, by decide⟩

/-- C2 (amended).  `run_sync_with_retries(dal, retries, delay)` invokes
`run_sync` at most `retries` times (not `retries + 1`): it returns `True` as
soon as an attempt succeeds, having slept exactly once per failed attempt
before the success, and it returns `False` exactly when `retries` attempts
all failed, having slept `retries` times — including a final
`time.sleep(delay)` after the last failed attempt, not only between
consecutive attempts. -/
theorem c2_retry_bound {σ : Type} (dal : Dal σ) (envs : ℕ → SyncEnv)
    (today : ℕ) (retries : ℕ) (st : σ) (lf : FileState LiftLog)
    (r : sync.RetryOut σ)
    (h : sync.run_sync_with_retries dal envs today retries st lf = .ok r) :
    r.attempts ≤ retries ∧
    (r.ok = true → 1 ≤ r.attempts ∧ r.sleeps + 1 = r.attempts) ∧
    (r.ok = false → r.attempts = retries ∧ r.sleeps = retries) :=
  retryLoop_spec dal envs today retries 0 st lf r h

/-- C2 (witness): the amended theorem applied to the single-retry failing
run of `c2_counterexample`. -/
theorem c2_witness :
    (1 : ℕ) ≤ 1 ∧
    ((false : Bool) = true → 1 ≤ 1 ∧ 1 + 1 = 1) ∧
    ((false : Bool) = false → (1 : ℕ) = 1 ∧ (1 : ℕ) = 1) := by
  have h := c2_retry_bound jsonDal (fun _ => envWithingsDown) 5 1 stJ0 .absent
    ⟨false, 1, 1,
      { liftLog := .absent, history := .good [(5, sumWA)],
        daily := [(5, .good sumWA)] }, .absent⟩ rfl
  exact h

/-! ### Claim C5 — there is no typed StorageError -/

/-- C5 (counterexample).  The claim says an implementation failure other
than an absent file "causes the operation to raise a typed StorageError to
its caller — failures are never swallowed silently."  Concretely:
`PostgresDal.load_lift_log` on a dead connection (a database that does hold
a strength row) swallows the failure and returns `{}` as if the log were
empty, raising nothing; and `JsonDal._read_json` on a malformed file raises
the raw `json.JSONDecodeError` — no `StorageError` type exists anywhere in
the repository. -/
theorem c5_counterexample :
    PostgresDal.load_lift_log pgDead = .ok [] ∧
    jsonReadFile ([] : LiftLog) .corrupt = .error .jsonDecodeError ∧
    PyExc.jsonDecodeError ≠ PyExc.storageError :=
  ⟨rfl, rfl, by decide⟩

/-- C5 (amended).  An absent file is treated as empty state on the JSON
backend, as claimed; but no typed `StorageError` exists: the JSON backend
propagates the raw underlying exception (`json.JSONDecodeError`) to its
caller, while every Postgres operation catches ALL exceptions, logs them,
and returns normally — an empty/`None` default for reads and an unchanged
database for writes — so Postgres failures ARE swallowed. -/
theorem c5_storage_errors (st : PgState) (s : JVal) (d n eid dt : ℕ)
    (reps w : ℚ) (rir : Option ℚ) (α : Type) (e : α) :
    jsonReadFile e .absent = .ok e ∧
    jsonReadFile e .corrupt = .error .jsonDecodeError ∧
    (∃ v, PostgresDal.load_lift_log st = .ok v) ∧
    (∃ v, PostgresDal.load_history st = .ok v) ∧
    (∃ v, PostgresDal.get_historical_metrics st n = .ok v) ∧
    (∃ v, PostgresDal.get_daily_summary st d = .ok v) ∧
    (∃ v, PostgresDal.save_daily_summary st s d = .ok v) ∧
    (∃ v, PostgresDal.save_strength_log_entry st eid dt reps w rir = .ok v) ∧
    (st.connected = false →
      PostgresDal.load_lift_log st = .ok [] ∧
      PostgresDal.load_history st = .ok [] ∧
      PostgresDal.get_historical_metrics st n = .ok [] ∧
      PostgresDal.get_daily_summary st d = .ok none ∧
      PostgresDal.save_daily_summary st s d = .ok st ∧
      PostgresDal.save_strength_log_entry st eid dt reps w rir = .ok st) := by
  refine ⟨rfl, rfl, pgTry_ok _ _, pgTry_ok _ _, pgTry_ok _ _, pgTry_ok _ _,
    pgTry_ok _ _, pgTry_ok _ _, fun hc => ?_⟩
  refine ⟨?_, ?_, ?_, ?_, ?_, ?_⟩ <;>
    (first
      | rfl
      | (simp [PostgresDal.load_lift_log, PostgresDal.load_history,
          PostgresDal.get_historical_metrics, PostgresDal.get_daily_summary,
          PostgresDal.save_daily_summary, PostgresDal.save_strength_log_entry,
          pgGuard, hc, pgTry, Except.bind]
         try rfl))

/-- C5 (witness): the amended theorem applied to the dead-connection
database `pgDead`. -/
theorem c5_witness :
    PostgresDal.load_lift_log pgDead = .ok [] ∧
    PostgresDal.load_history pgDead = .ok [] ∧
    PostgresDal.get_historical_metrics pgDead 7 = .ok [] ∧
    PostgresDal.get_daily_summary pgDead 3 = .ok none ∧
    PostgresDal.save_daily_summary pgDead (.obj []) 3 = .ok pgDead ∧
    PostgresDal.save_strength_log_entry pgDead 1 3 5 100 none = .ok pgDead :=
  (c5_storage_errors pgDead (.obj []) 3 7 1 3 5 100 none Unit ()).2.2.2.2.2.2.2.2
    rfl

/-! ### Claim C3 — `get_historical_metrics(0)` returns everything on JSON -/

/-- C3 (counterexample).  The claim says that for every `n ≥ 0` the method
returns "at most `n`" records on either backend.  Concretely, on the JSON
backend with one stored day, `get_historical_metrics(0)` returns that one
record — because `sorted(history.keys())[-0:]` is `[-0:] = [0:]`, the whole
key list — where the claim requires at most 0. -/
theorem c3_counterexample :
    JsonDal.get_historical_metrics stJ1 0 = .ok [.obj []] ∧ ¬ ((1 : ℕ) ≤ 0) :=
  ⟨rfl, by decide⟩

/-- C3 (amended).  For every `n ≥ 1` on the JSON backend — and for every
`n ≥ 0` on the Postgres backend — `get_historical_metrics(n)` returns the
final segment of length `min n |history|` of the history in chronological
(date-ascending) order: at most `n` records, fewer when the history is
shorter, the empty list on an empty history, and always the most recent
ones.  For `n = 0` the JSON backend instead returns the entire history (see
the counterexample). -/
theorem c3_last_n_chronological :
    (∀ (st : JsonState) (hist : List (ℕ × JVal)) (n : ℕ), 1 ≤ n →
      JsonDal.load_history st = .ok hist →
        JsonDal.get_historical_metrics st n =
          .ok ((jsonChronological hist).drop (hist.length - n)) ∧
        ((jsonChronological hist).drop (hist.length - n)).length =
          min n hist.length) ∧
    (∀ (st : PgState) (n : ℕ), st.connected = true →
      (st.daily.map Prod.fst).Nodup →
        PostgresDal.get_historical_metrics st n =
          .ok ((pgChronological st).drop (st.daily.length - n)) ∧
        ((pgChronological st).drop (st.daily.length - n)).length =
          min n st.daily.length) := by
  constructor
  · intro st hist n hn hh
    have hlen : ((hist.map Prod.fst).insertionSort (· ≤ ·)).length =
        hist.length := by
      rw [List.length_insertionSort, List.length_map]
    have hchr : (jsonChronological hist).length = hist.length := by
      rw [jsonChronological, List.length_map, hlen]
    constructor
    · simp only [JsonDal.get_historical_metrics, hh]
      show Except.ok ((pyLastSlice
          ((hist.map Prod.fst).insertionSort (· ≤ ·)) n).map
          (fun d => (alookup hist d).getD (.obj []))) = _
      simp only [pyLastSlice]
      rw [if_neg (by omega), List.map_drop, hlen]
      rfl
    · rw [List.length_drop, hchr]
      omega
  · intro st n hc hnd
    have hasc : (PostgresDal.sortedAsc st.daily).length = st.daily.length := by
      rw [PostgresDal.sortedAsc, List.length_insertionSort]
    have hchr : (pgChronological st).length = st.daily.length := by
      rw [pgChronological, List.length_map, hasc]
    constructor
    · simp only [PostgresDal.get_historical_metrics, pgGuard, hc, if_true,
        pgTry, Except.bind]
      show Except.ok ((((PostgresDal.sortedDesc st.daily).take n).reverse).map
          (fun p => PostgresDal.row_to_summary p.2)) = _
      rw [sortedDesc_eq_reverse hnd]
      rw [List.reverse_take]
      simp only [List.reverse_reverse, List.length_reverse]
      rw [List.map_drop, hasc]
      rfl
    · rw [List.length_drop, hchr]
      omega

/-- C3 (witness): the amended theorem applied to the one-day JSON store with
`n = 1` and to an empty connected database with `n = 7`. -/
theorem c3_witness :
    (JsonDal.get_historical_metrics stJ1 1 =
        .ok ((jsonChronological [(3, .obj [])]).drop ([(3, (JVal.obj []))].length - 1)) ∧
      ((jsonChronological [(3, .obj [])]).drop ([(3, (JVal.obj []))].length - 1)).length =
        min 1 [(3, (JVal.obj []))].length) ∧
    (PostgresDal.get_historical_metrics pgSt0 7 =
        .ok ((pgChronological pgSt0).drop (pgSt0.daily.length - 7)) ∧
      ((pgChronological pgSt0).drop (pgSt0.daily.length - 7)).length =
        min 7 pgSt0.daily.length) :=
  ⟨c3_last_n_chronological.1 stJ1 [(3, .obj [])] 1 (by decide) rfl,
   c3_last_n_chronological.2 pgSt0 7 rfl (by simp [pgSt0])⟩

/-! ### Claim C4 — round-trip holds on JSON, only up to projection on Postgres -/

theorem bind_pgNumParam_jNum {β : Type} (v : Option ℚ)
    (k : Option ℚ → Except PyExc β) :
    (pgNumParam (some (jNum v)) >>= k) = k v := by
  cases v <;> rfl

theorem map_pgNumParam_jNum {β : Type} (v : Option ℚ)
    (f : Option ℚ → β) :
    (f <$> pgNumParam (some (jNum v)) : Except PyExc β) = .ok (f v) := by
  cases v <;> rfl

theorem extractRow_row_to_summary (r : PgRow) :
    PostgresDal.extractRow (PostgresDal.row_to_summary r) = .ok r := by
  simp [PostgresDal.extractRow, PostgresDal.row_to_summary, JVal.getD,
    JVal.get, List.lookup, bind_pgNumParam_jNum, map_pgNumParam_jNum]

theorem alookup_map_snd {κ α β : Type} [DecidableEq κ] (f : α → β) :
    ∀ (l : List (κ × α)) (k : κ),
      alookup (l.map (fun p => (p.1, f p.2))) k = (alookup l k).map f
  | [], _ => rfl
  | (k₀, v) :: rest, k => by
      by_cases h : k₀ = k
      · simp [alookup_cons, h]
      · simp [alookup_cons, h, alookup_map_snd f rest k]

/-- C4 (counterexample).  The claim says that on BOTH backends,
`get_daily_summary(d)` after `save_daily_summary(s, d)` "returns a value
equal to `s`".  Concretely, for the summary used by the repository's own
round-trip test, `{"withings": {"weight": 80}, "apple": {"steps": 1000}}`,
the Postgres backend stores only the 20 metric columns and reconstructs the
full canonical dict: the value read back has four keys under `"withings"`
(`weight`, `fat_percent`, `muscle_mass`, `water_percent`) where `s` has one,
so it is not equal to `s`. -/
theorem c4_counterexample :
    PostgresDal.save_daily_summary pgSt0 sumTest 7 =
      .ok { connected := true, daily := [(7, rowTest)], strength := [] } ∧
    PostgresDal.get_daily_summary
        { connected := true, daily := [(7, rowTest)], strength := [] } 7 =
      .ok (some (PostgresDal.row_to_summary rowTest)) ∧
    PostgresDal.get_daily_summary
        { connected := true, daily := [(7, rowTest)], strength := [] } 7 ≠
      .ok (some sumTest) :=
  ⟨rfl, rfl, fun h => absurd (congrArg obsWithings h) (by decide)⟩

/-- C4 (amended).  The round-trip law holds in full on the JSON backend:
after `save_daily_summary(s, d)`, `get_daily_summary(d)` returns `s` itself
and `load_history()[d] = s`.  On the Postgres backend the law holds exactly
for summaries already in canonical column shape (`_row_to_summary` of some
row): the store keeps only the 20 metric columns, so `get_daily_summary(d)`
and `load_history()[d]` return the canonical projection of what was saved,
which equals the saved value only in that case (see the counterexample for
a non-canonical summary). -/
theorem c4_roundtrip :
    (∀ (st : JsonState) (s : JVal) (d : ℕ) (hist : List (ℕ × JVal)),
      JsonDal.load_history st = .ok hist →
        ∃ st', JsonDal.save_daily_summary st s d = .ok st' ∧
          JsonDal.get_daily_summary st' d = .ok (some s) ∧
          JsonDal.load_history st' = .ok (upsert hist d s) ∧
          alookup (upsert hist d s) d = some s) ∧
    (∀ (st : PgState) (r : PgRow) (d : ℕ), st.connected = true →
      ∃ st', PostgresDal.save_daily_summary st
          (PostgresDal.row_to_summary r) d = .ok st' ∧
        PostgresDal.get_daily_summary st' d =
          .ok (some (PostgresDal.row_to_summary r)) ∧
        ((st.daily.map Prod.fst).Nodup →
          ∃ h', PostgresDal.load_history st' = .ok h' ∧
            alookup h' d = some (PostgresDal.row_to_summary r))) := by
  constructor
  · intro st s d hist hh
    refine ⟨{ liftLog := st.liftLog, history := .good (upsert hist d s),
              daily := upsert st.daily d (.good s) }, ?_, ?_, ?_, ?_⟩
    · have hh' : JsonDal.load_history
          { st with daily := upsert st.daily d (.good s) } = .ok hist := hh
      simp only [JsonDal.save_daily_summary]
      rw [hh']
      rfl
    · simp only [JsonDal.get_daily_summary]
      rw [alookup_upsert_self]
      rfl
    · rfl
    · exact alookup_upsert_self hist d s
  · intro st r d hc
    have hex := extractRow_row_to_summary r
    refine ⟨{ st with daily := upsert st.daily d r }, ?_, ?_, ?_⟩
    · simp only [PostgresDal.save_daily_summary, pgGuard, hc, if_true]
      have hseq : ((Except.ok () : Except PyExc Unit) *>
          PostgresDal.extractRow (PostgresDal.row_to_summary r)) = .ok r := hex
      rw [hseq]
      rfl
    · simp only [PostgresDal.get_daily_summary, pgGuard]
      rw [hc]
      simp only [if_true]
      rw [alookup_upsert_self]
      rfl
    · intro hnd
      have hnd' := upsert_map_fst_nodup d r hnd
      refine ⟨(PostgresDal.sortedAsc (upsert st.daily d r)).map
          (fun p => (p.1, PostgresDal.row_to_summary p.2)), ?_, ?_⟩
      · simp only [PostgresDal.load_history, pgGuard]
        rw [hc]
        simp only [if_true]
        rfl
      · rw [alookup_map_snd]
        have hperm : List.Perm (upsert st.daily d r)
            (PostgresDal.sortedAsc (upsert st.daily d r)) :=
          (List.perm_insertionSort _ _).symm
        rw [← alookup_perm hperm hnd' d, alookup_upsert_self]
        rfl

/-- C4 (witness): the amended theorem applied to empty stores, the test
summary on the JSON backend, and the canonical row on Postgres. -/
theorem c4_witness :
    (∃ st', JsonDal.save_daily_summary stJ0 sumTest 7 = .ok st' ∧
      JsonDal.get_daily_summary st' 7 = .ok (some sumTest) ∧
      JsonDal.load_history st' = .ok (upsert [] 7 sumTest) ∧
      alookup (upsert [] 7 sumTest) 7 = some sumTest) ∧
    (∃ st', PostgresDal.save_daily_summary pgSt0
        (PostgresDal.row_to_summary rowTest) 7 = .ok st' ∧
      PostgresDal.get_daily_summary st' 7 =
        .ok (some (PostgresDal.row_to_summary rowTest)) ∧
      ((pgSt0.daily.map Prod.fst).Nodup →
        ∃ h', PostgresDal.load_history st' = .ok h' ∧
          alookup h' 7 = some (PostgresDal.row_to_summary rowTest))) :=
  ⟨c4_roundtrip.1 stJ0 sumTest 7 [] rfl, c4_roundtrip.2 pgSt0 rowTest 7 rfl⟩

/-! ### Claim C7 — only `append_log_entry` keeps the log sorted -/

/-- C7 (counterexample).  The claim says that after ANY sequence of
`save_strength_log_entry` / `append_log_entry` calls with arbitrary entry
dates, each exercise's stored sequence is sorted non-decreasing by date.
Concretely, two `JsonDal.save_strength_log_entry` calls for exercise 2 with
dates 5 and then 3 leave the stored sequence `[date 5, date 3]`:
`JsonDal.save_strength_log_entry` appends at the end of the list (json_dal.py
line 47) and never re-sorts, so the sequence is not sorted. -/
theorem c7_counterexample :
    JsonDal.save_strength_log_entry stJ0 2 5 5 100 none =
      .ok { liftLog := .good [("2",
              [{ date := 5, reps := some 5, weight := some 100,
                 sets := none, rir := none }])],
            history := .absent, daily := [] } ∧
    JsonDal.save_strength_log_entry
        { liftLog := .good [("2",
            [{ date := 5, reps := some 5, weight := some 100,
               sets := none, rir := none }])],
          history := .absent, daily := [] } 2 3 5 100 none =
      .ok { liftLog := .good [("2",
              [{ date := 5, reps := some 5, weight := some 100,
                 sets := none, rir := none },
               { date := 3, reps := some 5, weight := some 100,
                 sets := none, rir := none }])],
            history := .absent, daily := [] } ∧
    ¬ List.Pairwise (fun a b : Entry => a.date ≤ b.date)
        [{ date := 5, reps := some 5, weight := some 100,
           sets := none, rir := none },
         { date := 3, reps := some 5, weight := some 100,
           sets := none, rir := none }] :=
  ⟨rfl, rfl, by decide⟩

/-- C7 (amended).  `lift_log.append_log_entry` preserves the invariant: it
appends the new entry and re-sorts that exercise's list with Python's stable
`sorted`, so every per-exercise sequence stays sorted non-decreasing by
date, other exercises are untouched, and the new list is a permutation of
the old list plus the appended entry (nothing is removed or modified).
`JsonDal.save_strength_log_entry`, however, only appends: its result is
sorted only when the appended date is at least every date already stored
for that exercise. -/
theorem c7_sorted_append :
    (∀ (file : FileState LiftLog) (log : LiftLog) (eid : ℕ)
        (w reps sets : ℚ) (rir : Option ℚ) (d : ℕ),
      lift_log.load_log file = .ok log →
      (∀ k l, alookup log k = some l →
        List.Pairwise (fun a b : Entry => a.date ≤ b.date) l) →
      ∃ log', lift_log.append_log_entry file eid w reps sets rir d =
          .ok (.good log') ∧
        (∀ k l', alookup log' k = some l' →
          List.Pairwise (fun a b : Entry => a.date ≤ b.date) l') ∧
        (∀ k, k ≠ toString eid → alookup log' k = alookup log k) ∧
        List.Perm ((alookup log' (toString eid)).getD [])
          ((alookup log (toString eid)).getD [] ++
            [{ date := d, reps := some reps, weight := some w,
               sets := some sets, rir := rir }])) ∧
    (∀ (st : JsonState) (log : LiftLog) (eid : ℕ) (reps w : ℚ)
        (rir : Option ℚ) (d : ℕ),
      JsonDal.load_lift_log st = .ok log →
      (∀ k l, alookup log k = some l →
        List.Pairwise (fun a b : Entry => a.date ≤ b.date) l) →
      (∀ e ∈ (alookup log (toString eid)).getD [], e.date ≤ d) →
      ∃ log', JsonDal.save_strength_log_entry st eid d reps w rir =
          .ok { st with liftLog := .good log' } ∧
        (∀ k l', alookup log' k = some l' →
          List.Pairwise (fun a b : Entry => a.date ≤ b.date) l')) := by
  haveI instTot : IsTotal Entry (fun a b : Entry => a.date ≤ b.date) :=
    ⟨fun a b => le_total a.date b.date⟩
  haveI instTrans : IsTrans Entry (fun a b : Entry => a.date ≤ b.date) :=
    ⟨fun _ _ _ hab hbc => le_trans hab hbc⟩
  constructor
  · intro file log eid w reps sets rir d hload hinv
    refine ⟨upsert log (toString eid)
        (((alookup log (toString eid)).getD [] ++
          [({ date := d, reps := some reps, weight := some w,
              sets := some sets, rir := rir } : Entry)]).insertionSort
          (fun a b => a.date ≤ b.date)), ?_, ?_, ?_, ?_⟩
    · simp only [lift_log.append_log_entry]
      rw [hload]
      rfl
    · intro k l' hk
      by_cases hke : k = toString eid
      · subst hke
        rw [alookup_upsert_self] at hk
        injection hk with hk
        subst hk
        exact List.sorted_insertionSort _ _
      · rw [alookup_upsert_ne _ _ _ _ hke] at hk
        exact hinv k l' hk
    · intro k hk
      exact alookup_upsert_ne _ _ _ _ hk
    · rw [alookup_upsert_self]
      exact List.perm_insertionSort _ _
  · intro st log eid reps w rir d hload hinv hle
    refine ⟨upsert log (toString eid)
        ((alookup log (toString eid)).getD [] ++
          [({ date := d, reps := some reps, weight := some w,
              sets := none, rir := rir } : Entry)]), ?_, ?_⟩
    · simp only [JsonDal.save_strength_log_entry]
      rw [hload]
      rfl
    · intro k l' hk
      by_cases hke : k = toString eid
      · subst hke
        rw [alookup_upsert_self] at hk
        injection hk with hk
        subst hk
        rw [List.pairwise_append]
        refine ⟨?_, List.pairwise_singleton _ _, ?_⟩
        · cases hfind : alookup log (toString eid) with
          | none => simp [hfind]
          | some l0 => simpa [hfind] using hinv _ l0 hfind
        · intro a ha b hb
          rw [List.mem_singleton] at hb
          subst hb
          exact hle a ha
      · rw [alookup_upsert_ne _ _ _ _ hke] at hk
        exact hinv k l' hk

/-- C7 (witness): the amended theorem applied to an empty lift-log file. -/
theorem c7_witness :
    (∃ log', lift_log.append_log_entry .absent 2 100 5 3 none 4 =
        .ok (.good log') ∧
      (∀ k l', alookup log' k = some l' →
        List.Pairwise (fun a b : Entry => a.date ≤ b.date) l') ∧
      (∀ k, k ≠ toString 2 → alookup log' k = alookup ([] : LiftLog) k) ∧
      List.Perm ((alookup log' (toString 2)).getD [])
        ((alookup ([] : LiftLog) (toString 2)).getD [] ++
          [{ date := 4, reps := some 5, weight := some 100,
             sets := some 3, rir := none }])) ∧
    (∃ log', JsonDal.save_strength_log_entry stJ0 2 4 5 100 none =
        .ok { stJ0 with liftLog := .good log' } ∧
      (∀ k l', alookup log' k = some l' →
        List.Pairwise (fun a b : Entry => a.date ≤ b.date) l')) := by
  constructor
  · exact c7_sorted_append.1 .absent [] 2 100 5 3 none 4 rfl
      (fun k l h => by simp [alookup] at h)
  · exact c7_sorted_append.2 stJ0 [] 2 5 100 none 4 rfl
      (fun k l h => by simp [alookup] at h)
      (fun e he => by simp [alookup] at he)

/-! ### Claims C8 and C10 — the recovery validator -/

theorem rhrRuleFires_eq (cfg : Settings) (rb rl : Option ℚ) :
    validation.rhrRuleFires cfg rb rl = .ok (rhrFiresB cfg rb rl) := by
  cases rb with
  | none => rfl
  | some b =>
      cases rl with
      | none =>
          by_cases hb : b = 0 <;>
            simp [validation.rhrRuleFires, rhrFiresB, pyTruthy, hb]
      | some l =>
          by_cases hb : b = 0 <;> by_cases hl : l = 0 <;>
            simp [validation.rhrRuleFires, rhrFiresB, pyTruthy, hb, hl]

theorem sleepRuleFires_eq (cfg : Settings) (sb sl : Option ℚ) :
    validation.sleepRuleFires cfg sb sl = .ok (sleepFiresB cfg sb sl) := by
  cases sb with
  | none => rfl
  | some b =>
      cases sl with
      | none =>
          by_cases hb : b = 0 <;>
            simp [validation.sleepRuleFires, sleepFiresB, pyTruthy, hb]
      | some l =>
          by_cases hb : b = 0 <;> by_cases hl : l = 0 <;>
            simp [validation.sleepRuleFires, sleepFiresB, pyTruthy, hb, hl]

theorem rhrFiresB_false_of_falsy (cfg : Settings) {rb rl : Option ℚ}
    (h : pyTruthy rb = false ∨ pyTruthy rl = false) :
    rhrFiresB cfg rb rl = false := by
  cases rb with
  | none => rfl
  | some b =>
      cases rl with
      | none => rfl
      | some l =>
          rcases h with h | h <;> simp [pyTruthy] at h <;>
            simp [rhrFiresB, h]

theorem sleepFiresB_false_of_falsy (cfg : Settings) {sb sl : Option ℚ}
    (h : pyTruthy sb = false ∨ pyTruthy sl = false) :
    sleepFiresB cfg sb sl = false := by
  cases sb with
  | none => rfl
  | some b =>
      cases sl with
      | none => rfl
      | some l =>
          rcases h with h | h <;> simp [pyTruthy] at h <;>
            simp [sleepFiresB, h]

theorem backoffSession_eq (B : ℚ) (s : Session)
    (hs : sessOK (fun ex => ex.weight_target.isSome) s = true) :
    validation.backoffSession B s = .ok (if s.type = "weights" then
      { s with exercises := s.exercises.map (fun exs => exs.map (fun ex =>
          { ex with weight_target := ex.weight_target.map (· * B) })) }
    else s) := by
  rw [sessOK] at hs
  by_cases ht : s.type = "weights"
  · rw [if_pos ht] at hs
    rw [if_pos ht]
    cases hex : s.exercises with
    | none => rw [hex] at hs; exact absurd hs (by simp)
    | some exs =>
        rw [hex] at hs
        have hall : ∀ ex ∈ exs, ex.weight_target.isSome = true := by
          intro ex hm
          exact List.all_eq_true.mp hs ex hm
        have hmap : mapME (validation.backoffExercise B) exs =
            .ok (exs.map (fun ex =>
              { ex with weight_target := ex.weight_target.map (· * B) })) := by
          refine mapME_ok_of_forall ?_
          intro ex hm
          cases hwt : ex.weight_target with
          | none => exact absurd (hwt ▸ hall ex hm) (by simp)
          | some t => simp [validation.backoffExercise, hwt]
        simp only [validation.backoffSession, if_pos ht, hex, hmap]
        rfl
  · rw [if_neg ht] at hs
    rw [if_neg ht]
    simp only [validation.backoffSession, if_neg ht]
    rfl

theorem backoffDay_eq (B : ℚ) (d : PDay)
    (hs : d.sessions.all (sessOK (fun ex => ex.weight_target.isSome)) = true) :
    validation.backoffDay B d = .ok { d with sessions := d.sessions.map (fun s =>
      if s.type = "weights" then
        { s with exercises := s.exercises.map (fun exs => exs.map (fun ex =>
            { ex with weight_target := ex.weight_target.map (· * B) })) }
      else s) } := by
  have hmap : mapME (validation.backoffSession B) d.sessions =
      .ok (d.sessions.map (fun s =>
        if s.type = "weights" then
          { s with exercises := s.exercises.map (fun exs => exs.map (fun ex =>
              { ex with weight_target := ex.weight_target.map (· * B) })) }
        else s)) := by
    refine mapME_ok_of_forall ?_
    intro s hm
    exact backoffSession_eq B s (List.all_eq_true.mp hs s hm)
  simp only [validation.backoffDay, hmap]
  rfl

theorem backoffWeek_eq (B : ℚ) (w : Week) (hs : weekBackoffSafe w = true) :
    validation.backoffWeek B w = .ok (scaleWeek B w) := by
  have hmap : mapME (validation.backoffDay B) w.days =
      .ok (w.days.map (fun d => { d with sessions := d.sessions.map (fun s =>
        if s.type = "weights" then
          { s with exercises := s.exercises.map (fun exs => exs.map (fun ex =>
              { ex with weight_target := ex.weight_target.map (· * B) })) }
        else s) })) := by
    refine mapME_ok_of_forall ?_
    intro d hm
    exact backoffDay_eq B d (List.all_eq_true.mp hs d hm)
  simp only [validation.backoffWeek, hmap]
  rfl

theorem check_recovery_eq (cfg : Settings) (week : Week) (start : String)
    (rb rl sb sl : Option ℚ) (delta : ℚ)
    (vlog : List (String × List String)) (hs : weekBackoffSafe week = true) :
    validation.check_recovery cfg week start rb rl sb sl delta vlog =
      .ok ((if firesAny cfg rb rl sb sl delta then
              scaleWeek cfg.GLOBAL_BACKOFF_FACTOR week else week),
           recoveryNotes cfg rb rl sb sl delta,
           vlog ++ [("validation_week" ++ toString week.week_index ++ "_"
              ++ start, recoveryNotes cfg rb rl sb sl delta)]) := by
  by_cases hd : delta > cfg.BODY_AGE_ALLOWED_INCREASE <;>
  cases h1 : rhrFiresB cfg rb rl <;>
  cases h2 : sleepFiresB cfg sb sl <;>
    simp [validation.check_recovery, rhrRuleFires_eq, sleepRuleFires_eq,
      h1, h2, hd, firesAny, recoveryNotes, backoffWeek_eq _ _ hs,
      bind, Except.bind, pure, Except.pure]

theorem check_recovery_nofire (cfg : Settings) (week : Week) (start : String)
    (rb rl sb sl : Option ℚ) (delta : ℚ)
    (vlog : List (String × List String))
    (h1 : rhrFiresB cfg rb rl = false) (h2 : sleepFiresB cfg sb sl = false)
    (hd : ¬ delta > cfg.BODY_AGE_ALLOWED_INCREASE) :
    validation.check_recovery cfg week start rb rl sb sl delta vlog =
      .ok (week, [],
        vlog ++ [("validation_week" ++ toString week.week_index ++ "_"
          ++ start, [])]) := by
  simp [validation.check_recovery, rhrRuleFires_eq, sleepRuleFires_eq,
    h1, h2, hd, bind, Except.bind, pure, Except.pure]

/-- C8 (counterexample).  The claim reads the three rules without guards:
rule 1 fires when "7-day RHR average > baseline * (1 + RHR_ALLOWED_INCREASE)".
Concretely, with `rhr_baseline = 0.0` and `rhr_last_week = 60.0` (and the
other inputs quiet), the claim's rule-1 inequality `60 > 0 * 1.1` holds, so
the claim requires a back-off (target 100 → 90) and one note; but the code's
truthiness guard `rhr_baseline and ...` (validation.py line 42) makes the
zero baseline skip the rule: the week comes back unchanged and the note list
is empty. -/
theorem c8_counterexample :
    validation.check_recovery defaultSettings (weekOneEx 100) "2025-01-01"
        (some 0) (some 60) none none 0 [] =
      .ok (weekOneEx 100, [], [("validation_week1_2025-01-01", [])]) ∧
    (60 : ℚ) > 0 * (1 + defaultSettings.RHR_ALLOWED_INCREASE) :=
  ⟨rfl, by norm_num [defaultSettings]⟩

/-- C8 (amended).  With the truthiness guards the code applies — the RHR
rule can only fire when both the baseline and the 7-day average are present
and nonzero, likewise the sleep rule — `check_recovery` behaves as claimed
on every week whose `weights` sessions carry exercise lists with
`weight_target` keys: if at least one guarded rule fires, every
`weight_target` of every `weights` session is multiplied by
`GLOBAL_BACKOFF_FACTOR` exactly once and non-weights sessions are untouched
(`scaleWeek`); each firing rule contributes exactly one adjustment note; the
notes are persisted via `save_validation_log` under the tag
`validation_week{week_index}_{cycle start date}`; and if no rule fires the
week is returned unchanged with no notes. -/
theorem c8_guarded_backoff (cfg : Settings) (week : Week) (start : String)
    (rb rl sb sl : Option ℚ) (delta : ℚ)
    (vlog : List (String × List String)) (hs : weekBackoffSafe week = true) :
    validation.check_recovery cfg week start rb rl sb sl delta vlog =
      .ok ((if firesAny cfg rb rl sb sl delta then
              scaleWeek cfg.GLOBAL_BACKOFF_FACTOR week else week),
           recoveryNotes cfg rb rl sb sl delta,
           vlog ++ [("validation_week" ++ toString week.week_index ++ "_"
              ++ start, recoveryNotes cfg rb rl sb sl delta)]) ∧
    (recoveryNotes cfg rb rl sb sl delta).length =
      (cond (rhrFiresB cfg rb rl) 1 0) + (cond (sleepFiresB cfg sb sl) 1 0) +
      (cond (decide (delta > cfg.BODY_AGE_ALLOWED_INCREASE)) 1 0) ∧
    (firesAny cfg rb rl sb sl delta = false →
      recoveryNotes cfg rb rl sb sl delta = []) := by
  refine ⟨check_recovery_eq cfg week start rb rl sb sl delta vlog hs, ?_, ?_⟩
  · by_cases hd : delta > cfg.BODY_AGE_ALLOWED_INCREASE <;>
    cases h1 : rhrFiresB cfg rb rl <;>
    cases h2 : sleepFiresB cfg sb sl <;>
      simp [recoveryNotes, h1, h2, hd]
  · intro hf
    simp only [firesAny, Bool.or_eq_false_iff, decide_eq_false_iff_not] at hf
    obtain ⟨⟨h1, h2⟩, hd⟩ := hf
    simp [recoveryNotes, h1, h2, hd]

/-- C8 (witness): the amended theorem applied to the one-exercise week with
a firing RHR rule (baseline 50, 7-day average 60, the repository's own
"recovery poor" scenario). -/
theorem c8_witness :
    validation.check_recovery defaultSettings (weekOneEx 100) "2025-01-01"
        (some 50) (some 60) (some 400) (some 400) 0 [] =
      .ok ((if firesAny defaultSettings (some 50) (some 60) (some 400)
              (some 400) 0 then
              scaleWeek defaultSettings.GLOBAL_BACKOFF_FACTOR (weekOneEx 100)
            else weekOneEx 100),
           recoveryNotes defaultSettings (some 50) (some 60) (some 400)
             (some 400) 0,
           [] ++ [("validation_week" ++ toString (weekOneEx 100).week_index
              ++ "_" ++ "2025-01-01",
              recoveryNotes defaultSettings (some 50) (some 60) (some 400)
                (some 400) 0)]) ∧
    (recoveryNotes defaultSettings (some 50) (some 60) (some 400) (some 400)
        0).length =
      (cond (rhrFiresB defaultSettings (some 50) (some 60)) 1 0) +
      (cond (sleepFiresB defaultSettings (some 400) (some 400)) 1 0) +
      (cond (decide ((0 : ℚ) > defaultSettings.BODY_AGE_ALLOWED_INCREASE)) 1 0) ∧
    (firesAny defaultSettings (some 50) (some 60) (some 400) (some 400) 0 =
        false →
      recoveryNotes defaultSettings (some 50) (some 60) (some 400) (some 400)
        0 = []) :=
  c8_guarded_backoff defaultSettings (weekOneEx 100) "2025-01-01"
    (some 50) (some 60) (some 400) (some 400) 0 [] (by decide)

/-- C10.  `check_recovery` never raises on `None` or `0.0` recovery inputs:
the truthiness guards short-circuit before the `None`-comparison could ever
be evaluated, so each guard evaluates to a Boolean (never an exception), a
rule whose baseline or 7-day average is `None` or `0.0` is silently skipped
and cannot fire, and when both guarded rules are skipped and the body-age
delta is within its threshold — what the orchestrator passes when history is
empty — `check_recovery` returns the week unchanged with no notes, for every
week, raising nothing. -/
theorem c10_none_zero_safe :
    (∀ (cfg : Settings) (rb rl : Option ℚ),
      validation.rhrRuleFires cfg rb rl = .ok (rhrFiresB cfg rb rl) ∧
      (pyTruthy rb = false ∨ pyTruthy rl = false →
        rhrFiresB cfg rb rl = false)) ∧
    (∀ (cfg : Settings) (sb sl : Option ℚ),
      validation.sleepRuleFires cfg sb sl = .ok (sleepFiresB cfg sb sl) ∧
      (pyTruthy sb = false ∨ pyTruthy sl = false →
        sleepFiresB cfg sb sl = false)) ∧
    (∀ (cfg : Settings) (week : Week) (start : String) (rb rl sb sl : Option ℚ)
        (delta : ℚ) (vlog : List (String × List String)),
      (pyTruthy rb = false ∨ pyTruthy rl = false) →
      (pyTruthy sb = false ∨ pyTruthy sl = false) →
      delta ≤ cfg.BODY_AGE_ALLOWED_INCREASE →
        validation.check_recovery cfg week start rb rl sb sl delta vlog =
          .ok (week, [],
            vlog ++ [("validation_week" ++ toString week.week_index ++ "_"
              ++ start, [])])) := by
  refine ⟨fun cfg rb rl => ⟨rhrRuleFires_eq cfg rb rl,
      fun h => rhrFiresB_false_of_falsy cfg h⟩,
    fun cfg sb sl => ⟨sleepRuleFires_eq cfg sb sl,
      fun h => sleepFiresB_false_of_falsy cfg h⟩,
    fun cfg week start rb rl sb sl delta vlog h1 h2 hd => ?_⟩
  exact check_recovery_nofire cfg week start rb rl sb sl delta vlog
    (rhrFiresB_false_of_falsy cfg h1) (sleepFiresB_false_of_falsy cfg h2)
    (not_lt.mpr hd)

/-- C10 (witness): the orchestrator's empty-history inputs — all four
averages `None` and a zero body-age delta — leave the one-exercise week
untouched. -/
theorem c10_witness :
    validation.check_recovery defaultSettings (weekOneEx 100) "2025-01-01"
        none none none none 0 [] =
      .ok (weekOneEx 100, [],
        [] ++ [("validation_week" ++ toString (weekOneEx 100).week_index
          ++ "_" ++ "2025-01-01", [])]) :=
  c10_none_zero_safe.2.2 defaultSettings (weekOneEx 100) "2025-01-01"
    none none none none 0 [] (Or.inl rfl) (Or.inl rfl) (by decide)

/-! ### Claim C6 — positivity of `weight_target` -/

theorem round_mul_pos {t m : ℚ} (ht : 1 ≤ t) (hm : 1 / 10 ≤ m) :
    0 < pyRound2 (t * m) := by
  apply pyRound2_pos
  nlinarith

set_option maxHeartbeats 800000 in
theorem progressEx_pos (cfg : Settings) (rg : Bool) (histL : LiftLog)
    (ex : Exercise) (hinc : 0 ≤ cfg.PROGRESSION_INCREMENT)
    (hdec0 : 0 ≤ cfg.PROGRESSION_DECREMENT)
    (hdec : cfg.PROGRESSION_DECREMENT ≤ 3 / 5)
    (hex : exTargetGe 1 ex = true) :
    exTargetPos (progression.progressEx cfg rg histL ex).1 = true := by
  obtain ⟨t, hwt, ht⟩ : ∃ t, ex.weight_target = some t ∧ 1 ≤ t := by
    cases h : ex.weight_target with
    | none => rw [exTargetGe, h] at hex; exact absurd hex (by simp)
    | some t =>
        refine ⟨t, rfl, ?_⟩
        rw [exTargetGe, h] at hex
        exact of_decide_eq_true hex
  simp only [progression.progressEx, hwt, Option.getD_some]
  split_ifs
  all_goals simp only [exTargetPos, hwt]
  all_goals rw [decide_eq_true_eq]
  all_goals (first
    | linarith
    | (apply round_mul_pos ht; linarith))

theorem progressSession_pos (cfg : Settings) (rg : Bool) (histL : LiftLog)
    (s : Session) (hinc : 0 ≤ cfg.PROGRESSION_INCREMENT)
    (hdec0 : 0 ≤ cfg.PROGRESSION_DECREMENT)
    (hdec : cfg.PROGRESSION_DECREMENT ≤ 3 / 5)
    (hs : sessOK (exTargetGe 1) s = true) :
    sessOK exTargetPos (progression.progressSession cfg rg histL s).1 = true := by
  by_cases ht : s.type = "weights"
  · rw [sessOK, if_pos ht] at hs
    cases hex : s.exercises with
    | none => rw [hex] at hs; exact absurd hs (by simp)
    | some exs =>
        rw [hex] at hs
        have hs' : exs.all (exTargetGe 1) = true := hs
        simp only [progression.progressSession,
          if_neg (fun hne => hne ht : ¬s.type ≠ "weights"), hex, sessOK,
          if_pos ht, Option.getD_some, Option.map_some, List.map_map]
        show ((exs.map (Prod.fst ∘ progression.progressEx cfg rg histL)).all
          exTargetPos) = true
        rw [List.all_eq_true]
        intro ex' hm
        rw [List.mem_map] at hm
        obtain ⟨ex, hmem, hx⟩ := hm
        subst hx
        exact progressEx_pos cfg rg histL ex hinc hdec0 hdec
          (List.all_eq_true.mp hs' ex hmem)
  · simp only [progression.progressSession, if_pos (ht : s.type ≠ "weights")]
    rw [sessOK, if_neg ht]

theorem progressDay_pos (cfg : Settings) (rg : Bool) (histL : LiftLog)
    (d : PDay) (hinc : 0 ≤ cfg.PROGRESSION_INCREMENT)
    (hdec0 : 0 ≤ cfg.PROGRESSION_DECREMENT)
    (hdec : cfg.PROGRESSION_DECREMENT ≤ 3 / 5)
    (hs : d.sessions.all (sessOK (exTargetGe 1)) = true) :
    ((progression.progressDay cfg rg histL d).1).sessions.all
      (sessOK exTargetPos) = true := by
  simp only [progression.progressDay, List.map_map]
  rw [List.all_eq_true]
  intro s' hm
  rw [List.mem_map] at hm
  obtain ⟨s, hmem, hx⟩ := hm
  subst hx
  exact progressSession_pos cfg rg histL s hinc hdec0 hdec
    (List.all_eq_true.mp hs s hmem)

theorem apply_progression_pos (cfg : Settings) (dal : MetricsDal) (week : Week)
    (hist : Option LiftLog) (hinc : 0 ≤ cfg.PROGRESSION_INCREMENT)
    (hdec0 : 0 ≤ cfg.PROGRESSION_DECREMENT)
    (hdec : cfg.PROGRESSION_DECREMENT ≤ 3 / 5)
    (hw : weekWeightsAll (exTargetGe 1) week = true) :
    weekWeightsAll exTargetPos
      (progression.apply_progression cfg dal week hist).1 = true := by
  rw [weekWeightsAll] at hw ⊢
  simp only [progression.apply_progression, List.map_map]
  rw [List.all_eq_true]
  intro d' hm
  rw [List.mem_map] at hm
  obtain ⟨d, hmem, hx⟩ := hm
  subst hx
  exact progressDay_pos cfg _ _ d hinc hdec0 hdec
    (List.all_eq_true.mp hw d hmem)

theorem weekWeightsAll_mono {p q : Exercise → Bool}
    (hpq : ∀ ex, p ex = true → q ex = true) {w : Week}
    (hw : weekWeightsAll p w = true) : weekWeightsAll q w = true := by
  rw [weekWeightsAll, List.all_eq_true] at hw ⊢
  intro d hd
  rw [List.all_eq_true]
  intro s hsm
  have hs := List.all_eq_true.mp (hw d hd) s hsm
  rw [sessOK] at hs ⊢
  by_cases ht : s.type = "weights"
  · rw [if_pos ht] at hs ⊢
    cases hex : s.exercises with
    | none => rw [hex] at hs; exact absurd hs (by simp)
    | some exs =>
        rw [hex] at hs
        have hs' : exs.all p = true := hs
        show exs.all q = true
        rw [List.all_eq_true] at hs' ⊢
        exact fun ex hm => hpq ex (hs' ex hm)
  · rw [if_neg ht]

theorem scaleWeek_pos (B : ℚ) (w : Week) (hB : 0 < B)
    (hw : weekWeightsAll exTargetPos w = true) :
    weekWeightsAll exTargetPos (scaleWeek B w) = true := by
  rw [weekWeightsAll, List.all_eq_true] at hw ⊢
  simp only [scaleWeek]
  intro d' hm
  rw [List.mem_map] at hm
  obtain ⟨d, hmem, hx⟩ := hm
  subst hx
  rw [List.all_eq_true]
  simp only [List.mem_map]
  rintro s' ⟨s, hsm, hx⟩
  subst hx
  have hs := List.all_eq_true.mp (hw d hmem) s hsm
  rw [sessOK] at hs
  by_cases ht : s.type = "weights"
  · rw [if_pos ht] at hs
    cases hex : s.exercises with
    | none => rw [hex] at hs; exact absurd hs (by simp)
    | some exs =>
        rw [hex] at hs
        have hs' : exs.all exTargetPos = true := hs
        rw [if_pos ht, sessOK, if_pos ht]
        show (exs.map (fun ex =>
          ({ ex with weight_target := ex.weight_target.map (· * B) } :
            Exercise))).all exTargetPos = true
        rw [List.all_eq_true]
        simp only [List.mem_map]
        rintro ex' ⟨ex, hxm, hx⟩
        subst hx
        have hxp := List.all_eq_true.mp hs' ex hxm
        rw [exTargetPos] at hxp
        cases hwt : ex.weight_target with
        | none => rw [hwt] at hxp; exact absurd hxp (by simp)
        | some t =>
            rw [hwt] at hxp
            have ht' : 0 < t := of_decide_eq_true hxp
            simp only [exTargetPos, hwt, Option.map_some]
            exact decide_eq_true (mul_pos ht' hB)
  · rw [if_neg ht, sessOK, if_neg ht]

/-- C6 (counterexample).  The claim says `weight_target` stays positive
"under any configuration values" because "degenerate multipliers are clamped
or rejected".  The engine clamps nothing: with
`PROGRESSION_DECREMENT = 1.0`, a 100 kg target, and a lift history of four
50 kg sets (below target, triggering the back-off branch), the new target is
`round(100 * (1 - 1.0), 2) = 0.0` — not strictly positive. -/
theorem c6_counterexample :
    ¬ ∀ q ∈ weekTargets (progression.apply_progression cfgDeg dalEmpty
        (weekOneEx 100) (some hist50)).1, 0 < q := by
  have hkey : toString (1 : ℕ) = "1" := rfl
  have h : weekTargets (progression.apply_progression cfgDeg dalEmpty
      (weekOneEx 100) (some hist50)).1 = [0] := by
    norm_num [progression.apply_progression, progression.progressDay,
      progression.progressSession, progression.progressEx, weekTargets,
      cfgDeg, dalEmpty, weekOneEx, hist50, alookup, hkey, _average, pymean,
      pyRound2, pyRoundHalfEven, defaultSettings, metricRhr, metricSleep,
      Int.floor_zero, List.filterMap_cons, List.filterMap_nil, List.sum_cons,
      List.sum_nil]
  rw [h]
  intro hall
  exact absurd (hall 0 (List.mem_singleton_self 0)) (lt_irrefl 0)

/-- C6 (amended).  Positivity of `weight_target` is preserved only under
non-degenerate configuration and non-tiny starting targets — the engine
itself neither clamps nor rejects: if `PROGRESSION_INCREMENT ≥ 0`,
`PROGRESSION_DECREMENT ∈ [0, 0.6]` (so the recovery-poor decrement
`1.5 × PROGRESSION_DECREMENT` still leaves a positive multiplier that
two-decimal rounding cannot send to zero), `GLOBAL_BACKOFF_FACTOR > 0`, and
every starting `weight_target` is at least 1 kg, then after
`apply_progression` — under any DAL contents and lift history — every
`weight_target` of every `weights` session is strictly positive, and it
stays strictly positive after any subsequent `check_recovery` pass. -/
theorem c6_positive_targets (cfg : Settings) (dal : MetricsDal) (week : Week)
    (hist : Option LiftLog) (start : String) (rb rl sb sl : Option ℚ)
    (delta : ℚ) (vlog : List (String × List String))
    (hinc : 0 ≤ cfg.PROGRESSION_INCREMENT)
    (hdec0 : 0 ≤ cfg.PROGRESSION_DECREMENT)
    (hdec : cfg.PROGRESSION_DECREMENT ≤ 3 / 5)
    (hB : 0 < cfg.GLOBAL_BACKOFF_FACTOR)
    (hw : weekWeightsAll (exTargetGe 1) week = true) :
    weekWeightsAll exTargetPos
      (progression.apply_progression cfg dal week hist).1 = true ∧
    (∀ w' notes vlog',
      validation.check_recovery cfg
          (progression.apply_progression cfg dal week hist).1 start
          rb rl sb sl delta vlog = .ok (w', notes, vlog') →
        weekWeightsAll exTargetPos w' = true) := by
  have hpos := apply_progression_pos cfg dal week hist hinc hdec0 hdec hw
  refine ⟨hpos, fun w' notes vlog' h => ?_⟩
  have hsafe : weekBackoffSafe
      (progression.apply_progression cfg dal week hist).1 = true := by
    refine weekWeightsAll_mono (fun ex hx => ?_) hpos
    rw [exTargetPos] at hx
    cases hwt : ex.weight_target with
    | none => rw [hwt] at hx; exact absurd hx (by simp)
    | some t => simp [hwt]
  rw [check_recovery_eq cfg _ start rb rl sb sl delta vlog hsafe] at h
  injection h with h
  have hw' : w' = (if firesAny cfg rb rl sb sl delta then
      scaleWeek cfg.GLOBAL_BACKOFF_FACTOR
        (progression.apply_progression cfg dal week hist).1
    else (progression.apply_progression cfg dal week hist).1) :=
    (congrArg Prod.fst h).symm
  rw [hw']
  by_cases hf : firesAny cfg rb rl sb sl delta = true
  · rw [if_pos hf]
    exact scaleWeek_pos _ _ hB hpos
  · rw [if_neg hf]
    exact hpos

/-- C6 (witness): the amended theorem applied to the default configuration,
the one-exercise 100 kg week, and the four-sets-of-50 history. -/
theorem c6_witness :
    weekWeightsAll exTargetPos
      (progression.apply_progression defaultSettings dalEmpty (weekOneEx 100)
        (some hist50)).1 = true ∧
    (∀ w' notes vlog',
      validation.check_recovery defaultSettings
          (progression.apply_progression defaultSettings dalEmpty
            (weekOneEx 100) (some hist50)).1 "2025-01-01"
          none none none none 0 [] = .ok (w', notes, vlog') →
        weekWeightsAll exTargetPos w' = true) :=
  c6_positive_targets defaultSettings dalEmpty (weekOneEx 100) (some hist50)
    "2025-01-01" none none none none 0 []
    (by norm_num [defaultSettings]) (by norm_num [defaultSettings])
    (by norm_num [defaultSettings]) (by norm_num [defaultSettings])
    (by decide)

/-! ### Claim C9 — the 4-week skeleton -/

theorem weekdayName_congr {m n : ℕ} (h : m % 7 = n % 7) :
    plan_builder.weekdayName m = plan_builder.weekdayName n := by
  unfold plan_builder.weekdayName
  rw [h]

theorem daySessions_cases (hd : List String) (nm : String) :
    (nm ∈ ["Mon", "Tue", "Thu", "Fri"] →
      plan_builder.daySessions hd nm =
        [{ type := "weights",
           intensity := some (if nm ∈ hd then "heavy" else "moderate"),
           name := none, duration_min := none, exercises := some [] }]) ∧
    (nm = "Wed" →
      plan_builder.daySessions hd nm =
        [{ type := "hiit", intensity := none, name := some "Blaze",
           duration_min := some 45, exercises := none }]) ∧
    (nm = "Sat" ∨ nm = "Sun" →
      plan_builder.daySessions hd nm =
        [{ type := "rest", intensity := none, name := none,
           duration_min := none, exercises := none }]) := by
  refine ⟨fun h => ?_, fun h => ?_, fun h => ?_⟩
  · rw [plan_builder.daySessions, if_pos h]
  · subst h
    rw [plan_builder.daySessions, if_neg (by decide), if_pos rfl]
  · rcases h with h | h <;> subst h <;>
      rw [plan_builder.daySessions, if_neg (by decide), if_neg (by decide)]

theorem daySessions_erase (hd hd' : List String) (nm : String) :
    (plan_builder.daySessions hd nm).map (fun s => { s with intensity := none }) =
      (plan_builder.daySessions hd' nm).map (fun s => { s with intensity := none }) := by
  rw [plan_builder.daySessions, plan_builder.daySessions]
  split_ifs <;> rfl

/-- C9.  For every start date and every recovery signal, `build_block`
produces exactly 4 weeks of 7 days each — 28 Day entries in all — where
every Monday, Tuesday, Thursday and Friday holds a `weights` session with an
empty exercise list (intensity `heavy` exactly on the two days designated by
the recovery signal, `moderate` on the other two weight days), every
Wednesday holds the fixed 45-minute HIIT session, and every Saturday and
Sunday holds a `rest` session; each week has exactly two heavy days, and the
recovery signal changes only the intensity labels — erasing them leaves
identical plans for both signals. -/
theorem c9_skeleton (g : Bool) (s : ℕ) :
    (plan_builder.build_block g s).weeks.length = 4 ∧
    (∀ w ∈ (plan_builder.build_block g s).weeks, w.days.length = 7) ∧
    (((plan_builder.build_block g s).weeks.map (fun w => w.days.length)).sum
      = 28) ∧
    (∀ w ∈ (plan_builder.build_block g s).weeks, ∀ d ∈ w.days,
      d.day = plan_builder.weekdayName d.date ∧
      (d.day ∈ ["Mon", "Tue", "Thu", "Fri"] →
        d.sessions = [{
              type := "weights",
              intensity := some (if d.day ∈ (if g then ["Mon", "Thu"]
                else ["Tue", "Fri"]) then "heavy" else "moderate"),
              name := none, duration_min := none,
              exercises := some [] }]) ∧
      (d.day = "Wed" →
        d.sessions = [{
              type := "hiit", intensity := none, name := some "Blaze",
              duration_min := some 45, exercises := none }]) ∧
      (d.day = "Sat" ∨ d.day = "Sun" →
        d.sessions = [{
              type := "rest", intensity := none, name := none,
              duration_min := none, exercises := none }])) ∧
    (∀ w ∈ (plan_builder.build_block g s).weeks,
      (w.days.filter (fun d => d.sessions.any
        (fun sess => sess.intensity = some "heavy"))).length = 2) ∧
    eraseIntensity (plan_builder.build_block g s) =
      eraseIntensity (plan_builder.build_block (!g) s) := by
  refine ⟨?_, ?_, ?_, ?_, ?_, ?_⟩
  · simp [plan_builder.build_block]
  · intro w hw
    simp only [plan_builder.build_block, List.mem_map, List.mem_range] at hw
    obtain ⟨wi, hwi, rfl⟩ := hw
    simp
  · have h7 : ∀ w ∈ (plan_builder.build_block g s).weeks,
        (fun w : Week => w.days.length) w = (fun _ : Week => 7) w := by
      intro w hw
      simp only [plan_builder.build_block, List.mem_map, List.mem_range] at hw
      obtain ⟨wi, hwi, rfl⟩ := hw
      simp
    rw [List.map_congr_left h7, List.map_const']
    have h4 : (plan_builder.build_block g s).weeks.length = 4 := by
      simp [plan_builder.build_block]
    rw [h4]
    decide
  · intro w hw d hd
    simp only [plan_builder.build_block, List.mem_map, List.mem_range] at hw
    obtain ⟨wi, hwi, rfl⟩ := hw
    simp only [List.mem_map, List.mem_range] at hd
    obtain ⟨o, ho, rfl⟩ := hd
    refine ⟨rfl, ?_, ?_, ?_⟩
    · exact (daySessions_cases _ _).1
    · exact (daySessions_cases _ _).2.1
    · exact (daySessions_cases _ _).2.2
  · intro w hw
    simp only [plan_builder.build_block, List.mem_map, List.mem_range] at hw
    obtain ⟨wi, hwi, rfl⟩ := hw
    have hshift : ∀ o : ℕ,
        plan_builder.weekdayName (s + ((wi + 1 - 1) * 7 + o)) =
          plan_builder.weekdayName (s % 7 + o) :=
      fun o => weekdayName_congr (by omega)
    have key : (List.range 7).countP
        (fun o => ((plan_builder.daySessions
            (if g then ["Mon", "Thu"] else ["Tue", "Fri"])
            (plan_builder.weekdayName (s % 7 + o))).any
          (fun sess => sess.intensity = some "heavy"))) = 2 := by
      have hr : s % 7 < 7 := Nat.mod_lt _ (by omega)
      revert hr
      generalize s % 7 = r
      intro hr
      interval_cases r <;> cases g <;> decide
    rw [← List.countP_eq_length_filter, List.countP_map]
    refine Eq.trans (List.countP_congr fun o ho => ?_) key
    show ((plan_builder.daySessions (if g then ["Mon", "Thu"] else ["Tue", "Fri"])
        (plan_builder.weekdayName (s + ((wi + 1 - 1) * 7 + o)))).any
        (fun sess => sess.intensity = some "heavy") = true) ↔ _
    rw [hshift o]
  · simp only [eraseIntensity, plan_builder.build_block, List.map_map]
    refine congrArg (fun ws => Plan.mk s ws) ?_
    refine List.map_congr_left ?_
    intro wi _
    simp only [Function.comp]
    refine congrArg (fun ds => Week.mk (wi + 1) ds) ?_
    rw [List.map_map, List.map_map]
    refine List.map_congr_left ?_
    intro o _
    refine congrArg (fun ss => PDay.mk (s + ((wi + 1 - 1) * 7 + o)) (wi + 1)
      (plan_builder.weekdayName (s + ((wi + 1 - 1) * 7 + o))) ss) ?_
    exact daySessions_erase _ _ _

/-- C9 (witness): the skeleton theorem evaluated at a concrete start date
(3, a Thursday) for the good-recovery signal: 4 weeks, 28 days, and the
intensity-erased plan coincides with the poor-recovery one. -/
theorem c9_witness :
    (plan_builder.build_block true 3).weeks.length = 4 ∧
    ((plan_builder.build_block true 3).weeks.map
      (fun w => w.days.length)).sum = 28 ∧
    eraseIntensity (plan_builder.build_block true 3) =
      eraseIntensity (plan_builder.build_block false 3) :=
  ⟨(c9_skeleton true 3).1, (c9_skeleton true 3).2.2.1,
    (c9_skeleton true 3).2.2.2.2.2⟩
